import Mathlib

/-! CCOLAMD MATLAB adapter (`CCOLAMD/MATLAB/ccolamdmex.c`)

A shallow embedding of `mexFunction`, the MATLAB gateway of the constrained
column ordering `ccolamd`, and the properties of it that the specification
states.

The gateway is the only function of the ordering whose body is in the
repository excerpt.  Everything it calls is external to it and enters the model
through the record `Env`: the constants of `ccolamd.h`, the routines
`ccolamd_l_set_defaults`, `ccolamd_l_recommended`, `ccolamd_l` and the host
function `sparse`.  Calls with an effect outside the gateway are recorded, in
program order, in the trace of a `Run`; `mexErrMsgTxt` does not return, so an
error ends the run.

Numbers.  An `int64_t` is an integer kept in range by `wrap64`, the
two's-complement wrap at `2 ^ 63`; a finite `double` is the dyadic rational it
holds (`Dbl`), and every conversion or addition that produces one rounds to 53
significant bits, to nearest, ties to even (`Dbl.round`).  The conversion
`(int64_t) d` truncates toward zero; for a `d` outside the range of `int64_t`
C defines no value and the model takes the platform's, a parameter of `Env`.

Memory.  An array is a list.  Where the C code copies with `memcpy` or reads
`in_knobs [k]` without a test, the model checks the bounds and ends the run
with `Err.undefined` if they fail, since C gives no meaning to such a run.
-/

namespace Ccolamd

/-! ## Values -/

/-- The value an `int64_t` holds when the exact result of an addition or
subtraction is `v`: the two's-complement wrap at `2 ^ 63`. -/
def wrap64 (v : Int) : Int := (v + 2 ^ 63) % 2 ^ 64 - 2 ^ 63

/-- Number of binary digits of `a`, computed with `fuel` halvings at most. -/
def bitLengthAux : Nat → Nat → Nat
  | 0, _ => 0
  | fuel + 1, a => if a = 0 then 0 else bitLengthAux fuel (a / 2) + 1

/-- Number of binary digits of `a`. -/
def bitLength (a : Nat) : Nat := bitLengthAux a a

/-- A finite `double`: the dyadic rational `num / 2 ^ exp`.  Every finite IEEE
double has this form. -/
structure Dbl where
  num : Int
  exp : Nat
deriving DecidableEq, Inhabited

namespace Dbl

/-- The double nearest to `num / 2 ^ exp`: the value itself when `num` has at
most 53 significant bits (or is `2 ^ 53` in magnitude), else `num` rounded to
53 bits, to nearest, ties to even. -/
def round (num : Int) (exp : Nat) : Dbl :=
  if num.natAbs ≤ 2 ^ 53 then ⟨num, exp⟩ else
  let k := bitLength num.natAbs - 53
  let q := num.natAbs / 2 ^ k
  let r := num.natAbs % 2 ^ k
  let q := if 2 ^ (k - 1) < r ∨ (r = 2 ^ (k - 1) ∧ q % 2 = 1) then q + 1 else q
  let m : Int := if num < 0 then -(q : Int) else q
  if k ≤ exp then ⟨m, exp - k⟩ else ⟨m * 2 ^ (k - exp), 0⟩

/-- Conversion `(double) v` of an `int64_t`: the nearest double. -/
def ofInt64 (v : Int) : Dbl := round v 0

/-- The integer part of `d`, truncated toward zero. -/
def trunc (d : Dbl) : Int := Int.tdiv d.num (2 ^ d.exp)

/-- Test `d != 0`. -/
def ne0 (d : Dbl) : Bool := d.num != 0

/-- Test `d >= 0`. -/
def ge0 (d : Dbl) : Bool := decide (0 ≤ d.num)

/-- Increment `d ++` of a double: `d + 1`, rounded. -/
def incr (d : Dbl) : Dbl := round (d.num + 2 ^ d.exp) d.exp

/-- Value of a C truth value (`int` 0 or 1) stored into a `double`. -/
def ofBool (b : Bool) : Dbl := ofInt64 (if b then 1 else 0)

/-- The double `d` has the integer value `v`. -/
def holds (d : Dbl) (v : Int) : Prop := d.num = v * 2 ^ d.exp

instance (d : Dbl) (v : Int) : Decidable (d.holds v) := by
  unfold holds
  infer_instance

end Dbl

/-- The part of an `mxArray` the gateway looks at. -/
structure MxArray where
  /-- Result of `mxGetNumberOfDimensions`. -/
  ndims : Nat
  /-- Result of `mxIsSparse`. -/
  isSparse : Bool
  /-- Result of `mxGetM`: number of rows. -/
  m : Nat
  /-- Result of `mxGetN`: number of columns. -/
  n : Nat
  /-- Real data behind `mxGetPr`.  The knobs and cmember arguments are full
  real arrays, one stored value per element, so `mxGetNumberOfElements` is the
  length of this list. -/
  pr : List Dbl
  /-- Column offsets behind `mxGetJc` (sparse arrays). -/
  jc : List Int
  /-- Row indices behind `mxGetIr` (sparse arrays). -/
  ir : List Int
deriving DecidableEq, Inhabited

/-- Result of `mxGetNumberOfElements` for a full real array. -/
def mxGetNumberOfElements (a : MxArray) : Int := a.pr.length

/-- Arguments of one call `ccolamd_l (n_row, n_col, Alen, A, p, knobs, stats,
cmember)`.  The array `stats` is written only, so its contents before the call
are no argument.  A `cmember` of `none` is the C null pointer. -/
structure EngineArgs where
  n_row : Int
  n_col : Int
  Alen : Int
  A : List Int
  p : List Int
  knobs : List Dbl
  cmember : Option (List Int)
deriving DecidableEq

/-- What a call of `ccolamd_l` leaves behind: its return value and the
contents, by index, of the arrays `p` and `stats` it wrote in place.  The
workspace `A` is garbage afterwards and is never read again. -/
structure EngineResult where
  ok : Bool
  p : Nat → Int
  stats : Nat → Int

/-- The declarations the gateway takes from `ccolamd.h` and from the host.
Their definitions are outside the excerpt, so they are parameters. -/
structure Env where
  CCOLAMD_KNOBS : Nat
  CCOLAMD_STATS : Nat
  CCOLAMD_DENSE_ROW : Nat
  CCOLAMD_DENSE_COL : Nat
  CCOLAMD_AGGRESSIVE : Nat
  CCOLAMD_LU : Nat
  CCOLAMD_INFO1 : Nat
  CCOLAMD_INFO2 : Nat
  /-- Contents of `knobs [CCOLAMD_KNOBS]` after `ccolamd_l_set_defaults`. -/
  ccolamd_l_set_defaults : List Dbl
  /-- The sizing estimator; it returns a `size_t`. -/
  ccolamd_l_recommended : Int → Int → Int → Nat
  /-- The ordering engine. -/
  ccolamd_l : EngineArgs → EngineResult
  /-- The host function `sparse` reached through `mexCallMATLAB`; `none` when
  the host raises an error inside it. -/
  sparse : MxArray → Option MxArray
  /-- The value the platform gives to `(int64_t) d` for a `d` whose integer
  part is outside the range of `int64_t`, where C defines none. -/
  cast_undefined : Dbl → Int

/-- Conversion `(int64_t) d`: the integer part of `d` when it is in the range
of `int64_t`, else the platform's value. -/
def Env.toInt64 (env : Env) (d : Dbl) : Int :=
  if -2 ^ 63 ≤ d.trunc ∧ d.trunc < 2 ^ 63 then d.trunc else wrap64 (env.cast_undefined d)

/-- Arrays of the gateway: `cmember`, `p` and `A` are allocated with `mxCalloc`
and released with `mxFree`; `in_knobs` is the user's knobs vector. -/
inductive Var where
  | cmember
  | p
  | A
  | in_knobs
deriving DecidableEq

/-- The format strings of the verbose knob echo (lines 110-135).  A `Bool`
selects between the two texts of a `%s`. -/
inductive Msg where
  /-- Version banner and `knobs(1)`; `lu` picks "lu(A)" over the Cholesky text. -/
  | knobs1 (lu : Bool)
  /-- Line 116: `knobs(2)`, dense rows removed. -/
  | knobs2_removed
  /-- Line 121: `knobs(2)`, no dense rows removed. -/
  | knobs2_none
  /-- Line 125: `knobs(3)`, dense columns removed. -/
  | knobs3_removed
  /-- Line 130: `knobs(3)`, no dense columns removed. -/
  | knobs3_none
  /-- Line 132: `knobs(4)`; `yes` picks "yes" over "no". -/
  | knobs4 (yes : Bool)
  /-- Line 134: `knobs(5)`. -/
  | knobs5
deriving DecidableEq

/-- Calls with an effect outside the gateway, as recorded in a trace. -/
inductive Event where
  /-- Call `mxGetPr (pargin [k])`: the data of argument `k` is taken. -/
  | mxGetPr (k : Nat)
  /-- Call `mxCalloc (n, sizeof (int64_t))` for the named array. -/
  | mxCalloc (v : Var) (n : Int)
  /-- Call `mexPrintf` with the given format and `%g` arguments. -/
  | mexPrintf (msg : Msg) (args : List Dbl)
  /-- Call `mexCallMATLAB (..., "sparse")`. -/
  | mexCallMATLAB
  /-- Call `mxDestroyArray (Ainput)`. -/
  | mxDestroyArray
  /-- Call `ccolamd_l_recommended (nnz, n_row, n_col)`. -/
  | ccolamd_l_recommended (nnz n_row n_col : Int)
  /-- Call `ccolamd_l` with the given arguments. -/
  | ccolamd_l (a : EngineArgs)
  /-- Call `ccolamd_l_report (stats)`. -/
  | ccolamd_l_report (stats : List Int)
  /-- Call `mxFree` of the named array. -/
  | mxFree (v : Var)
deriving DecidableEq

/-- How a call can end other than by returning. -/
inductive Err where
  /-- The gateway called `mexErrMsgTxt (msg)`, which does not return. -/
  | mexErrMsgTxt (msg : String)
  /-- The host raised an error inside `mexCallMATLAB`, which ends the call. -/
  | mexCallMATLAB
  /-- The C code read or copied outside the named array: no defined
  behaviour. -/
  | undefined (array : Var)
deriving DecidableEq

/-- One call of the gateway as seen from outside: the trace of its external
calls, the two output slots `pargout [0]` and `pargout [1]` (`none` while
unassigned) and the error that ended it, if any. -/
structure Run where
  trace : List Event
  pargout0 : Option (List Dbl)
  pargout1 : Option (List Dbl)
  err : Option Err
deriving DecidableEq

/-- A call ended by an error after the given trace: no output is assigned. -/
def Run.raise (trace : List Event) (e : Err) : Run := ⟨trace, none, none, some e⟩

/-! ## The gateway, section by section -/

/-- State after "Get cmember" (lines 71-88). -/
structure CmemberState where
  trace : List Event
  cmember : Option (List Int)
  cslen : Int
deriving DecidableEq

/-- Lines 71-88: the constraint set, converted from 1-based to 0-based; the
subtraction is done in `int64_t`. -/
def getCmember (env : Env) (nargin : Int) (pargin : Nat → MxArray) : CmemberState :=
  if nargin > 2 then
    let in_cmember := (pargin 2).pr
    let cslen := mxGetNumberOfElements (pargin 2)
    if cslen ≠ 0 then
      ⟨[.mxGetPr 2, .mxCalloc .cmember cslen],
        some (in_cmember.map fun d => wrap64 (env.toInt64 d - 1)), cslen⟩
    else
      ⟨[.mxGetPr 2], none, cslen⟩
  else
    ⟨[], none, 0⟩

/-- State after "Get knobs" (lines 90-105).  The pointer `in_knobs` is
assigned only when a knobs argument is given. -/
structure KnobState where
  trace : List Event
  knobs : List Dbl
  spumoni : Int
  in_knobs : Option (List Dbl)
deriving DecidableEq

/-- Lines 100-103: the user's knobs written over the defaults, position by
position, as far as the user's vector reaches. -/
def setKnobs (env : Env) (in_knobs : List Dbl) (knobs : List Dbl) : List Dbl :=
  let knobs := if h : 0 < in_knobs.length then
      knobs.set env.CCOLAMD_LU (Dbl.ofBool (in_knobs[0]).ne0) else knobs
  let knobs := if h : 1 < in_knobs.length then
      knobs.set env.CCOLAMD_DENSE_ROW in_knobs[1] else knobs
  let knobs := if h : 2 < in_knobs.length then
      knobs.set env.CCOLAMD_DENSE_COL in_knobs[2] else knobs
  let knobs := if h : 3 < in_knobs.length then
      knobs.set env.CCOLAMD_AGGRESSIVE (Dbl.ofBool (in_knobs[3]).ne0) else knobs
  knobs

/-- Line 104: the verbosity flag. -/
def getSpumoni (in_knobs : List Dbl) : Int :=
  if h : 4 < in_knobs.length then (if (in_knobs[4]).ne0 then 1 else 0) else 0

/-- Lines 90-105: defaults, then the user's knobs. -/
def getKnobs (env : Env) (nargin : Int) (pargin : Nat → MxArray) : KnobState :=
  if nargin > 1 then
    let in_knobs := (pargin 1).pr
    ⟨[.mxGetPr 1], setKnobs env in_knobs env.ccolamd_l_set_defaults,
      getSpumoni in_knobs, some in_knobs⟩
  else
    ⟨[], env.ccolamd_l_set_defaults, 0, none⟩

/-- Lines 110-135: the verbose echo.  It reads `in_knobs [0]` to `in_knobs [4]`
without a test of its own; the result is `none` when one of these reads is
outside the user's vector or `in_knobs` was never assigned. -/
def printKnobs (env : Env) (in_knobs : Option (List Dbl)) (knobs : List Dbl) :
    Option (List Event) :=
  match in_knobs with
  | none => none
  | some v =>
    match v[0]?, v[1]?, v[2]?, v[3]?, v[4]? with
    | some k0, some k1, some k2, some k3, some k4 =>
      some [
        .mexPrintf (.knobs1 (knobs.getD env.CCOLAMD_LU default).ne0) [k0],
        (if (knobs.getD env.CCOLAMD_DENSE_ROW default).ge0 then
          .mexPrintf .knobs2_removed [k1, knobs.getD env.CCOLAMD_DENSE_ROW default]
        else
          .mexPrintf .knobs2_none [k1]),
        (if (knobs.getD env.CCOLAMD_DENSE_COL default).ge0 then
          .mexPrintf .knobs3_removed [k2, knobs.getD env.CCOLAMD_DENSE_COL default]
        else
          .mexPrintf .knobs3_none [k2]),
        .mexPrintf (.knobs4 (knobs.getD env.CCOLAMD_AGGRESSIVE default).ne0) [k3],
        .mexPrintf .knobs5 [k4]]
    | _, _, _, _, _ => none

/-- Lines 140-149: the matrix whose pattern is ordered.  A full input is
converted by the host function `sparse`; a sparse one is used as it is. -/
def getAinput (env : Env) (A0 : MxArray) : Option MxArray :=
  if !A0.isSparse then env.sparse A0 else some A0

/-- Lines 108-136: the echo is printed only if `spumoni` is set. -/
def echo (env : Env) (kn : KnobState) : Option (List Event) :=
  if kn.spumoni ≠ 0 then printKnobs env kn.in_knobs kn.knobs else some []

/-- State at line 183, right before the engine is called. -/
structure Setup where
  trace : List Event
  spumoni : Int
  args : EngineArgs
deriving DecidableEq

/-- Lines 151-181: sizes, the copy `p` of the column offsets, the workspace `A`
with the row indices copied in, and the check of the constraint set's size.
A `memcpy` that would leave its source or its target ends the run as
`Err.undefined`. -/
def allocate (env : Env) (cm : CmemberState) (kn : KnobState) (full : Bool)
    (Ainput : MxArray) (trace : List Event) : Run ⊕ Setup :=
  let n_row : Int := Ainput.m
  let n_col : Int := Ainput.n
  let t1 := trace ++ [.mxCalloc .p (n_col + 1)]
  if Ainput.jc.length < Ainput.n + 1 then .inl (Run.raise t1 (.undefined .p)) else
  let p := Ainput.jc.take (Ainput.n + 1)
  let nnz := p.getD Ainput.n 0
  let Alen : Int := env.ccolamd_l_recommended nnz n_row n_col
  let t2 := t1 ++ [.ccolamd_l_recommended nnz n_row n_col]
  if Alen = 0 then
    .inl (Run.raise t2 (.mexErrMsgTxt "ccolamd: problem too large"))
  else
  let t3 := t2 ++ [.mxCalloc .A Alen]
  if nnz < 0 ∨ Alen < nnz ∨ (Ainput.ir.length : Int) < nnz then
    .inl (Run.raise t3 (.undefined .A))
  else
  let A := Ainput.ir.take nnz.toNat ++ List.replicate (Alen - nnz).toNat 0
  let t4 := if full then t3 ++ [.mxDestroyArray] else t3
  if cm.cmember ≠ none ∧ cm.cslen ≠ n_col then
    .inl (Run.raise t4
      (.mexErrMsgTxt "ccolamd: cmember must be of length equal to #cols of A"))
  else
    .inr ⟨t4, kn.spumoni, ⟨n_row, n_col, Alen, A, p, kn.knobs, cm.cmember⟩⟩

/-- Lines 64-181: everything up to the call of the engine.  The result is
either the run that an error ended, or the state in which the engine is
called. -/
def setup (env : Env) (nargout nargin : Int) (pargin : Nat → MxArray) : Run ⊕ Setup :=
  if nargin < 1 ∨ nargin > 3 ∨ nargout < 0 ∨ nargout > 2 then
    .inl (Run.raise [] (.mexErrMsgTxt "Usage: [p stats] = ccolamd (A, knobs, cmember)"))
  else
  let cm := getCmember env nargin pargin
  let kn := getKnobs env nargin pargin
  match echo env kn with
  | none => .inl (Run.raise (cm.trace ++ kn.trace) (.undefined .in_knobs))
  | some printed =>
  let t1 := cm.trace ++ kn.trace ++ printed
  if (pargin 0).ndims ≠ 2 then
    .inl (Run.raise t1 (.mexErrMsgTxt "ccolamd: input matrix must be 2-dimensional"))
  else
  let full := !(pargin 0).isSparse
  let t2 := if full then t1 ++ [.mexCallMATLAB] else t1
  match getAinput env (pargin 0) with
  | none => .inl (Run.raise t2 .mexCallMATLAB)
  | some Ainput => allocate env cm kn full Ainput t2

/-- The array `stats [CCOLAMD_STATS]` as the engine left it. -/
def statsOf (env : Env) (r : EngineResult) : List Int :=
  (List.range env.CCOLAMD_STATS).map r.stats

/-- Lines 195-201: the permutation, converted from 0-based to 1-based: `p [i] + 1`
is computed in `int64_t` and stored as a double. -/
def out_perm (n_col : Int) (p : Nat → Int) : List Dbl :=
  (List.range n_col.toNat).map fun i => Dbl.ofInt64 (wrap64 (p i + 1))

/-- Lines 214-224: the statistics, each converted to a double, with the two
info fields then incremented as doubles. -/
def out_stats (env : Env) (stats : Nat → Int) : List Dbl :=
  let out := (List.range env.CCOLAMD_STATS).map fun i => Dbl.ofInt64 (stats i)
  let out := out.set env.CCOLAMD_INFO1 (out.getD env.CCOLAMD_INFO1 default).incr
  let out := out.set env.CCOLAMD_INFO2 (out.getD env.CCOLAMD_INFO2 default).incr
  out

/-- Lines 183-226: the call of the engine and the two outputs. -/
def order (env : Env) (nargout : Int) (s : Setup) : Run :=
  let r := env.ccolamd_l s.args
  let t1 := s.trace ++ [.ccolamd_l s.args]
  if !r.ok then
    Run.raise (t1 ++ [.ccolamd_l_report (statsOf env r)]) (.mexErrMsgTxt "ccolamd error!")
  else
  let t2 := t1 ++ [.mxFree .A, .mxFree .cmember, .mxFree .p]
  let t3 := if s.spumoni ≠ 0 then t2 ++ [.ccolamd_l_report (statsOf env r)] else t2
  if nargout = 2 then
    ⟨t3, some (out_perm s.args.n_col r.p), some (out_stats env r.stats), none⟩
  else
    ⟨t3, some (out_perm s.args.n_col r.p), none, none⟩

/-- The gateway `mexFunction (nargout, pargout, nargin, pargin)`. -/
def mexFunction (env : Env) (nargout nargin : Int) (pargin : Nat → MxArray) : Run :=
  match setup env nargout nargin pargin with
  | .inl run => run
  | .inr s => order env nargout s

/-! ## Names for the values and traces of a run -/

/-- The value `nnz = p [n_col]` read from the copied column offsets. -/
def nnzOf (Ainput : MxArray) : Int := (Ainput.jc.take (Ainput.n + 1)).getD Ainput.n 0

/-- The value `Alen` the estimator returns for the matrix. -/
def AlenOf (env : Env) (Ainput : MxArray) : Int :=
  env.ccolamd_l_recommended (nnzOf Ainput) Ainput.m Ainput.n

/-- The workspace as line 169-170 fill it. -/
def workspaceOf (env : Env) (Ainput : MxArray) : List Int :=
  Ainput.ir.take (nnzOf Ainput).toNat ++
    List.replicate (AlenOf env Ainput - nnzOf Ainput).toNat 0

/-- The two copies stay inside their arrays: `Jc` has `n_col + 1` entries and
`0 <= nnz <= Alen`, with `nnz` row indices present in `Ir`. -/
def CopiesInBounds (env : Env) (Ainput : MxArray) : Prop :=
  Ainput.n + 1 ≤ Ainput.jc.length ∧ 0 ≤ nnzOf Ainput ∧
    nnzOf Ainput ≤ AlenOf env Ainput ∧ nnzOf Ainput ≤ (Ainput.ir.length : Int)

instance (env : Env) (Ainput : MxArray) : Decidable (CopiesInBounds env Ainput) := by
  unfold CopiesInBounds
  infer_instance

/-- The trace of the allocation section when it runs to its end. -/
def allocTrace (env : Env) (full : Bool) (Ainput : MxArray) : List Event :=
  [.mxCalloc .p ((Ainput.n : Int) + 1),
    .ccolamd_l_recommended (nnzOf Ainput) Ainput.m Ainput.n,
    .mxCalloc .A (AlenOf env Ainput)] ++ (if full then [.mxDestroyArray] else [])

/-- The trace up to the test of the number of dimensions (line 141). -/
def echoTrace (env : Env) (nargin : Int) (pargin : Nat → MxArray)
    (printed : List Event) : List Event :=
  (getCmember env nargin pargin).trace ++ (getKnobs env nargin pargin).trace ++ printed

/-- The trace up to the allocation section (line 151). -/
def convTrace (env : Env) (nargin : Int) (pargin : Nat → MxArray)
    (printed : List Event) : List Event :=
  if (!(pargin 0).isSparse) = true then
    echoTrace env nargin pargin printed ++ [.mexCallMATLAB]
  else echoTrace env nargin pargin printed

/-- Events of the sections before the workspace is sized (lines 71-149). -/
def Event.early : Event → Prop
  | .mxGetPr _ => True
  | .mxCalloc .cmember _ => True
  | .mexPrintf _ _ => True
  | .mexCallMATLAB => True
  | _ => False

/-- Events of the last section (lines 183-226): the engine, its report and the
releases. -/
def Event.late : Event → Prop
  | .ccolamd_l _ => True
  | .ccolamd_l_report _ => True
  | .mxFree _ => True
  | _ => False

/-- The arguments the engine is called with for the matrix `Ainput`. -/
def argsOf (env : Env) (nargin : Int) (pargin : Nat → MxArray) (Ainput : MxArray) :
    EngineArgs :=
  ⟨Ainput.m, Ainput.n, AlenOf env Ainput, workspaceOf env Ainput,
    Ainput.jc.take (Ainput.n + 1), (getKnobs env nargin pargin).knobs,
    (getCmember env nargin pargin).cmember⟩

/-! ## Sample data

A concrete environment and a concrete call, on which the statements below are
instantiated.  The constants are those of `ccolamd.h`; the estimator and the
engine are stand-ins with the interface of the real ones. -/

/-- Knob defaults: both dense thresholds 10, aggressive absorption on, LU mode
off, the remaining slots zero. -/
def sampleDefaults : List Dbl :=
  [Dbl.ofInt64 10, Dbl.ofInt64 10, Dbl.ofInt64 1, Dbl.ofInt64 0] ++
    List.replicate 16 (Dbl.ofInt64 0)

/-- A sample environment.  Its engine returns `engineOk` and leaves the given
contents in `p` and `stats`; its estimator returns 0 when `tooLarge` is set or
an argument is negative; an undefined conversion yields `-2 ^ 63`. -/
def sampleEnvWith (engineOk tooLarge : Bool) (p stats : Nat → Int) : Env where
  CCOLAMD_KNOBS := 20
  CCOLAMD_STATS := 20
  CCOLAMD_DENSE_ROW := 0
  CCOLAMD_DENSE_COL := 1
  CCOLAMD_AGGRESSIVE := 2
  CCOLAMD_LU := 3
  CCOLAMD_INFO1 := 4
  CCOLAMD_INFO2 := 5
  ccolamd_l_set_defaults := sampleDefaults
  ccolamd_l_recommended := fun nnz n_row n_col =>
    if tooLarge ∨ nnz < 0 ∨ n_row < 0 ∨ n_col < 0 then 0
    else (2 * nnz + n_col + n_row + 1).toNat
  ccolamd_l := fun _ => ⟨engineOk, p, stats⟩
  sparse := fun a => some ⟨a.ndims, true, a.m, a.n, a.pr, a.jc, a.ir⟩
  cast_undefined := fun _ => -2 ^ 63

/-- The sample environment whose engine leaves the identity ordering in `p` and
`stats [k] = k`. -/
def sampleEnv (engineOk tooLarge : Bool) : Env :=
  sampleEnvWith engineOk tooLarge (fun i => i) (fun k => k)

/-- The pattern of the 2-by-2 identity matrix, sparse. -/
def sampleMatrix : MxArray := ⟨2, true, 2, 2, [], [0, 1, 2], [0, 1]⟩

/-- A full real row vector with the given entries. -/
def sampleVector (l : List Dbl) : MxArray := ⟨2, false, 1, l.length, l, [], []⟩

/-- The argument list `(sampleMatrix, knobs, cmember)`. -/
def samplePargin (knobs cmember : List Dbl) : Nat → MxArray
  | 0 => sampleMatrix
  | 1 => sampleVector knobs
  | _ => sampleVector cmember

/-- The arguments the engine receives for `sampleMatrix` when no knobs and no
constraints are given. -/
def sampleArgs : EngineArgs :=
  ⟨2, 2, 9, [0, 1, 0, 0, 0, 0, 0, 0, 0], [0, 1, 2], sampleDefaults, none⟩

/-- The arguments the engine receives for `sampleMatrix` with the given knobs
and constraint vector. -/
def sampleArgsWith (knobs : List Dbl) (cmember : Option (List Int)) : EngineArgs :=
  ⟨2, 2, 9, [0, 1, 0, 0, 0, 0, 0, 0, 0], [0, 1, 2], knobs, cmember⟩

/-- A sample knobs argument `[1, 0.5, -1, 0, 0, 7]`. -/
def sampleKnobs : List Dbl :=
  [Dbl.ofInt64 1, ⟨1, 1⟩, Dbl.ofInt64 (-1), Dbl.ofInt64 0, Dbl.ofInt64 0, Dbl.ofInt64 7]

/-- The knobs array for `sampleKnobs`: dense-row threshold 0.5, dense-column
threshold -1, aggressive absorption off, LU mode on. -/
def sampleKnobsArray : List Dbl :=
  [⟨1, 1⟩, Dbl.ofInt64 (-1), Dbl.ofInt64 0, Dbl.ofInt64 1] ++
    List.replicate 16 (Dbl.ofInt64 0)

/-! ## Predicates used in the statements -/

/-- The first `n` entries of the array `p` are a bijection onto the integers
`lo, ..., lo + n - 1`. -/
def BijectionOnto (n : Nat) (p : Nat → Int) (lo : Int) : Prop :=
  (∀ i < n, lo ≤ p i ∧ p i < lo + n) ∧
  (∀ i < n, ∀ j < n, p i = p j → i = j) ∧
  (∀ v, lo ≤ v → v < lo + n → ∃ i < n, p i = v)

/-- The entries of the vector `out` are a bijection onto the integers
`lo, ..., lo + out.length - 1`, each held exactly by a double. -/
def VectorBijectionOnto (out : List Dbl) (lo : Int) : Prop :=
  (∀ i (h : i < out.length), ∃ v, lo ≤ v ∧ v < lo + out.length ∧ out[i] = ⟨v, 0⟩) ∧
  (∀ i j (hi : i < out.length) (hj : j < out.length), out[i] = out[j] → i = j) ∧
  (∀ v, lo ≤ v → v < lo + out.length → ∃ i, ∃ h : i < out.length, out[i] = ⟨v, 0⟩)

/-- The two info slots are distinct places of the statistics array, as in
`ccolamd.h`. -/
def InfoSlots (env : Env) : Prop :=
  env.CCOLAMD_INFO1 < env.CCOLAMD_STATS ∧ env.CCOLAMD_INFO2 < env.CCOLAMD_STATS ∧
    env.CCOLAMD_INFO1 ≠ env.CCOLAMD_INFO2

instance (env : Env) : Decidable (InfoSlots env) := by
  unfold InfoSlots
  infer_instance

/-- The four knob slots are distinct places of the knobs array, which has
`CCOLAMD_KNOBS` entries, as in `ccolamd.h`. -/
def KnobSlots (env : Env) : Prop :=
  env.ccolamd_l_set_defaults.length = env.CCOLAMD_KNOBS ∧
  env.CCOLAMD_LU < env.CCOLAMD_KNOBS ∧ env.CCOLAMD_DENSE_ROW < env.CCOLAMD_KNOBS ∧
  env.CCOLAMD_DENSE_COL < env.CCOLAMD_KNOBS ∧ env.CCOLAMD_AGGRESSIVE < env.CCOLAMD_KNOBS ∧
  env.CCOLAMD_LU ≠ env.CCOLAMD_DENSE_ROW ∧ env.CCOLAMD_LU ≠ env.CCOLAMD_DENSE_COL ∧
  env.CCOLAMD_LU ≠ env.CCOLAMD_AGGRESSIVE ∧
  env.CCOLAMD_DENSE_ROW ≠ env.CCOLAMD_DENSE_COL ∧
  env.CCOLAMD_DENSE_ROW ≠ env.CCOLAMD_AGGRESSIVE ∧
  env.CCOLAMD_DENSE_COL ≠ env.CCOLAMD_AGGRESSIVE

instance (env : Env) : Decidable (KnobSlots env) := by
  unfold KnobSlots
  infer_instance

/-- Calls that print: `mexPrintf` and the reporter `ccolamd_l_report`. -/
def Event.prints : Event → Prop
  | .mexPrintf _ _ => True
  | .ccolamd_l_report _ => True
  | _ => False

/-! ## The paths through the gateway -/

theorem getCmember_trace (env : Env) (nargin : Int) (pargin : Nat → MxArray) :
    ∀ e ∈ (getCmember env nargin pargin).trace,
      e = .mxGetPr 2 ∨ e = .mxCalloc .cmember (mxGetNumberOfElements (pargin 2)) := by
  intro e he
  unfold getCmember at he
  by_cases h2 : nargin > 2
  · by_cases h0 : mxGetNumberOfElements (pargin 2) = 0
    · simp [h2, h0] at he
      exact Or.inl he
    · simp [h2, h0] at he
      exact he
  · simp [h2] at he

theorem getKnobs_trace (env : Env) (nargin : Int) (pargin : Nat → MxArray) :
    ∀ e ∈ (getKnobs env nargin pargin).trace, e = .mxGetPr 1 := by
  intro e he
  unfold getKnobs at he
  by_cases h1 : nargin > 1
  · simpa [h1] using he
  · simp [h1] at he

theorem printKnobs_trace (env : Env) (v : Option (List Dbl)) (knobs : List Dbl)
    (l : List Event) (h : printKnobs env v knobs = some l) :
    ∀ e ∈ l, ∃ msg args, e = .mexPrintf msg args := by
  intro e he
  unfold printKnobs at h
  split at h
  · simp at h
  · split at h
    · simp only [Option.some.injEq] at h
      subst h
      simp only [List.mem_cons, List.mem_singleton, List.not_mem_nil, or_false] at he
      rcases he with rfl | rfl | rfl | rfl | rfl
      · exact ⟨_, _, rfl⟩
      · split_ifs <;> exact ⟨_, _, rfl⟩
      · split_ifs <;> exact ⟨_, _, rfl⟩
      · exact ⟨_, _, rfl⟩
      · exact ⟨_, _, rfl⟩
    · simp at h

theorem echo_trace (env : Env) (kn : KnobState) (l : List Event)
    (h : echo env kn = some l) : ∀ e ∈ l, ∃ msg args, e = .mexPrintf msg args := by
  unfold echo at h
  split_ifs at h
  · exact printKnobs_trace env _ _ l h
  · simp only [Option.some.injEq] at h
    subst h
    simp

theorem allocate_cases (env : Env) (cm : CmemberState) (kn : KnobState) (full : Bool)
    (Ainput : MxArray) (t : List Event) :
    (Ainput.jc.length < Ainput.n + 1 ∧
      allocate env cm kn full Ainput t =
        .inl (Run.raise (t ++ [.mxCalloc .p ((Ainput.n : Int) + 1)]) (.undefined .p))) ∨
    (Ainput.n + 1 ≤ Ainput.jc.length ∧ AlenOf env Ainput = 0 ∧
      allocate env cm kn full Ainput t =
        .inl (Run.raise (t ++ [.mxCalloc .p ((Ainput.n : Int) + 1),
            .ccolamd_l_recommended (nnzOf Ainput) Ainput.m Ainput.n])
          (.mexErrMsgTxt "ccolamd: problem too large"))) ∨
    (AlenOf env Ainput ≠ 0 ∧ ¬ CopiesInBounds env Ainput ∧
      allocate env cm kn full Ainput t =
        .inl (Run.raise (t ++ [.mxCalloc .p ((Ainput.n : Int) + 1),
            .ccolamd_l_recommended (nnzOf Ainput) Ainput.m Ainput.n,
            .mxCalloc .A (AlenOf env Ainput)]) (.undefined .A))) ∨
    (AlenOf env Ainput ≠ 0 ∧ CopiesInBounds env Ainput ∧
      (cm.cmember ≠ none ∧ cm.cslen ≠ Ainput.n) ∧
      allocate env cm kn full Ainput t =
        .inl (Run.raise (t ++ allocTrace env full Ainput)
          (.mexErrMsgTxt "ccolamd: cmember must be of length equal to #cols of A"))) ∨
    (AlenOf env Ainput ≠ 0 ∧ CopiesInBounds env Ainput ∧
      ¬ (cm.cmember ≠ none ∧ cm.cslen ≠ Ainput.n) ∧
      allocate env cm kn full Ainput t =
        .inr ⟨t ++ allocTrace env full Ainput, kn.spumoni,
          ⟨Ainput.m, Ainput.n, AlenOf env Ainput, workspaceOf env Ainput,
            Ainput.jc.take (Ainput.n + 1), kn.knobs, cm.cmember⟩⟩) := by
  by_cases h1 : Ainput.jc.length < Ainput.n + 1
  · left
    refine ⟨h1, ?_⟩
    simp only [allocate, h1, if_true]
  right
  have h1' : Ainput.n + 1 ≤ Ainput.jc.length := Nat.le_of_not_lt h1
  by_cases h2 : AlenOf env Ainput = 0
  · left
    refine ⟨h1', h2, ?_⟩
    have h2' := h2
    unfold AlenOf nnzOf at h2'
    simp only [allocate, h1, if_false]
    rw [if_pos h2']
    simp only [List.append_assoc, List.cons_append, List.nil_append]
    rfl
  right
  have h2' := h2
  unfold AlenOf nnzOf at h2'
  by_cases h3 : nnzOf Ainput < 0 ∨ AlenOf env Ainput < nnzOf Ainput ∨
      (Ainput.ir.length : Int) < nnzOf Ainput
  · left
    refine ⟨h2, ?_, ?_⟩
    · unfold CopiesInBounds
      omega
    · have h3' := h3
      unfold AlenOf nnzOf at h3'
      simp only [allocate, h1, if_false]
      rw [if_neg h2', if_pos h3']
      simp only [List.append_assoc, List.cons_append, List.nil_append]
      rfl
  right
  have hb : CopiesInBounds env Ainput := by
    unfold CopiesInBounds
    omega
  have h3' := h3
  unfold AlenOf nnzOf at h3'
  by_cases h4 : cm.cmember ≠ none ∧ cm.cslen ≠ Ainput.n
  · left
    refine ⟨h2, hb, h4, ?_⟩
    simp only [allocate, h1, if_false]
    rw [if_neg h2', if_neg h3', if_pos h4]
    cases full
    · simp only [allocTrace, Bool.false_eq_true, if_false, List.append_nil,
        List.append_assoc, List.cons_append, List.nil_append]
      rfl
    · simp only [allocTrace, if_true, List.append_assoc, List.cons_append,
        List.nil_append]
      rfl
  · right
    refine ⟨h2, hb, h4, ?_⟩
    simp only [allocate, h1, if_false]
    rw [if_neg h2', if_neg h3', if_neg h4]
    cases full
    · simp only [allocTrace, Bool.false_eq_true, if_false, List.append_nil,
        List.append_assoc, List.cons_append, List.nil_append]
      rfl
    · simp only [allocTrace, if_true, List.append_assoc, List.cons_append,
        List.nil_append]
      rfl

theorem getSpumoni_ne_zero (v : List Dbl) (h : getSpumoni v ≠ 0) :
    ∃ h4 : 4 < v.length, (v[4]).ne0 = true := by
  unfold getSpumoni at h
  by_cases h4 : 4 < v.length
  · refine ⟨h4, ?_⟩
    rw [dif_pos h4] at h
    by_cases hne : (v[4]).ne0 = true
    · exact hne
    · rw [if_neg hne] at h
      exact absurd rfl h
  · rw [dif_neg h4] at h
    exact absurd rfl h

theorem getKnobs_spumoni (env : Env) (nargin : Int) (pargin : Nat → MxArray)
    (h : (getKnobs env nargin pargin).spumoni ≠ 0) :
    nargin > 1 ∧ (getKnobs env nargin pargin).in_knobs = some (pargin 1).pr ∧
      ∃ h4 : 4 < (pargin 1).pr.length, ((pargin 1).pr[4]).ne0 = true := by
  unfold getKnobs at h ⊢
  by_cases h1 : nargin > 1
  · rw [if_pos h1] at h ⊢
    exact ⟨h1, rfl, getSpumoni_ne_zero _ h⟩
  · rw [if_neg h1] at h
    exact absurd rfl h

theorem printKnobs_isSome (env : Env) (v : List Dbl) (knobs : List Dbl)
    (h4 : 4 < v.length) : (printKnobs env (some v) knobs).isSome = true := by
  unfold printKnobs
  have e0 : v[0]? = some v[0] := List.getElem?_eq_getElem (by omega)
  have e1 : v[1]? = some v[1] := List.getElem?_eq_getElem (by omega)
  have e2 : v[2]? = some v[2] := List.getElem?_eq_getElem (by omega)
  have e3 : v[3]? = some v[3] := List.getElem?_eq_getElem (by omega)
  have e4 : v[4]? = some v[4] := List.getElem?_eq_getElem (by omega)
  simp only [e0, e1, e2, e3, e4, Option.isSome_some]

theorem echo_isSome (env : Env) (nargin : Int) (pargin : Nat → MxArray) :
    (echo env (getKnobs env nargin pargin)).isSome = true := by
  unfold echo
  by_cases hs : (getKnobs env nargin pargin).spumoni ≠ 0
  · rw [if_pos hs]
    obtain ⟨_, hk, h4, _⟩ := getKnobs_spumoni env nargin pargin hs
    rw [hk]
    exact printKnobs_isSome env _ _ h4
  · rw [if_neg hs]
    rfl

theorem setup_cases (env : Env) (nargout nargin : Int) (pargin : Nat → MxArray) :
    ((nargin < 1 ∨ nargin > 3 ∨ nargout < 0 ∨ nargout > 2) ∧
      setup env nargout nargin pargin =
        .inl (Run.raise [] (.mexErrMsgTxt "Usage: [p stats] = ccolamd (A, knobs, cmember)"))) ∨
    (¬ (nargin < 1 ∨ nargin > 3 ∨ nargout < 0 ∨ nargout > 2) ∧
      ∃ printed, echo env (getKnobs env nargin pargin) = some printed ∧
        (((pargin 0).ndims ≠ 2 ∧
          setup env nargout nargin pargin =
            .inl (Run.raise (echoTrace env nargin pargin printed)
              (.mexErrMsgTxt "ccolamd: input matrix must be 2-dimensional"))) ∨
        ((pargin 0).ndims = 2 ∧ getAinput env (pargin 0) = none ∧
          setup env nargout nargin pargin =
            .inl (Run.raise (convTrace env nargin pargin printed) .mexCallMATLAB)) ∨
        ((pargin 0).ndims = 2 ∧ ∃ Ainput, getAinput env (pargin 0) = some Ainput ∧
          setup env nargout nargin pargin =
            allocate env (getCmember env nargin pargin) (getKnobs env nargin pargin)
              (!(pargin 0).isSparse) Ainput (convTrace env nargin pargin printed)))) := by
  by_cases hu : nargin < 1 ∨ nargin > 3 ∨ nargout < 0 ∨ nargout > 2
  · left
    exact ⟨hu, by simp only [setup, hu, if_true]⟩
  right
  refine ⟨hu, ?_⟩
  have hsome := echo_isSome env nargin pargin
  obtain ⟨printed, hp⟩ := Option.isSome_iff_exists.mp hsome
  refine ⟨printed, hp, ?_⟩
  by_cases hd : (pargin 0).ndims ≠ 2
  · left
    refine ⟨hd, ?_⟩
    unfold setup
    rw [if_neg hu]
    simp only [hp]
    rw [if_pos hd]
    rfl
  right
  have hd' : (pargin 0).ndims = 2 := not_not.mp hd
  cases hA : getAinput env (pargin 0) with
  | none =>
    left
    refine ⟨hd', rfl, ?_⟩
    unfold setup
    rw [if_neg hu]
    simp only [hp]
    rw [if_neg hd]
    simp only [hA]
    rfl
  | some Ainput =>
    right
    refine ⟨hd', Ainput, rfl, ?_⟩
    unfold setup
    rw [if_neg hu]
    simp only [hp]
    rw [if_neg hd]
    simp only [hA]
    rfl

theorem echoTrace_early (env : Env) (nargin : Int) (pargin : Nat → MxArray)
    (printed : List Event) (hp : echo env (getKnobs env nargin pargin) = some printed) :
    ∀ e ∈ echoTrace env nargin pargin printed, e.early := by
  intro e he
  unfold echoTrace at he
  rcases List.mem_append.mp he with he | he
  · rcases List.mem_append.mp he with he | he
    · rcases getCmember_trace env nargin pargin e he with rfl | rfl <;> trivial
    · rw [getKnobs_trace env nargin pargin e he]
      trivial
  · obtain ⟨msg, args, rfl⟩ := echo_trace env _ printed hp e he
    trivial

theorem convTrace_early (env : Env) (nargin : Int) (pargin : Nat → MxArray)
    (printed : List Event) (hp : echo env (getKnobs env nargin pargin) = some printed) :
    ∀ e ∈ convTrace env nargin pargin printed, e.early := by
  intro e he
  unfold convTrace at he
  split_ifs at he
  · rcases List.mem_append.mp he with he | he
    · exact echoTrace_early env nargin pargin printed hp e he
    · rw [List.mem_singleton.mp he]
      trivial
  · exact echoTrace_early env nargin pargin printed hp e he

theorem Event.early_not_late (e : Event) (h : e.early) : ¬ e.late := by
  cases e <;> simp_all [Event.early, Event.late]

theorem allocTrace_not_late (env : Env) (full : Bool) (Ainput : MxArray) :
    ∀ e ∈ allocTrace env full Ainput, ¬ e.late := by
  intro e he
  unfold allocTrace at he
  cases full <;> simp at he <;> rcases he with rfl | rfl | rfl | rfl <;> simp [Event.late]

theorem setup_inr (env : Env) (nargout nargin : Int) (pargin : Nat → MxArray) (s : Setup)
    (h : setup env nargout nargin pargin = .inr s) :
    ¬ (nargin < 1 ∨ nargin > 3 ∨ nargout < 0 ∨ nargout > 2) ∧ (pargin 0).ndims = 2 ∧
    ∃ printed Ainput, echo env (getKnobs env nargin pargin) = some printed ∧
      getAinput env (pargin 0) = some Ainput ∧ AlenOf env Ainput ≠ 0 ∧
      CopiesInBounds env Ainput ∧
      ¬ ((getCmember env nargin pargin).cmember ≠ none ∧
          (getCmember env nargin pargin).cslen ≠ Ainput.n) ∧
      s = ⟨convTrace env nargin pargin printed ++
            allocTrace env (!(pargin 0).isSparse) Ainput,
          (getKnobs env nargin pargin).spumoni, argsOf env nargin pargin Ainput⟩ := by
  rcases setup_cases env nargout nargin pargin with ⟨_, hs⟩ | ⟨hu, printed, hp, hc⟩
  · rw [hs] at h
    exact absurd h (by simp)
  · rcases hc with ⟨_, hs⟩ | ⟨_, _, hs⟩ | ⟨hd, Ainput, hA, hs⟩
    · rw [hs] at h
      exact absurd h (by simp)
    · rw [hs] at h
      exact absurd h (by simp)
    · rw [hs] at h
      rcases allocate_cases env (getCmember env nargin pargin) (getKnobs env nargin pargin)
          (!(pargin 0).isSparse) Ainput (convTrace env nargin pargin printed) with
        ⟨_, ha⟩ | ⟨_, _, ha⟩ | ⟨_, _, ha⟩ | ⟨_, _, _, ha⟩ | ⟨h2, hb, h4, ha⟩
      · rw [ha] at h
        exact absurd h (by simp)
      · rw [ha] at h
        exact absurd h (by simp)
      · rw [ha] at h
        exact absurd h (by simp)
      · rw [ha] at h
        exact absurd h (by simp)
      · rw [ha] at h
        refine ⟨hu, hd, printed, Ainput, hp, hA, h2, hb, h4, ?_⟩
        exact (Sum.inr.inj h).symm

theorem setup_inl (env : Env) (nargout nargin : Int) (pargin : Nat → MxArray) (r : Run)
    (h : setup env nargout nargin pargin = .inl r) :
    r.pargout0 = none ∧ r.pargout1 = none ∧ (∃ e, r.err = some e) ∧
      ∀ e ∈ r.trace, ¬ e.late := by
  rcases setup_cases env nargout nargin pargin with ⟨_, hs⟩ | ⟨hu, printed, hp, hc⟩
  · rw [hs] at h
    obtain rfl := Sum.inl.inj h
    exact ⟨rfl, rfl, ⟨_, rfl⟩, by simp [Run.raise]⟩
  · have hearly := convTrace_early env nargin pargin printed hp
    rcases hc with ⟨_, hs⟩ | ⟨_, _, hs⟩ | ⟨hd, Ainput, hA, hs⟩
    · rw [hs] at h
      obtain rfl := Sum.inl.inj h
      refine ⟨rfl, rfl, ⟨_, rfl⟩, ?_⟩
      intro e he
      exact Event.early_not_late e (echoTrace_early env nargin pargin printed hp e he)
    · rw [hs] at h
      obtain rfl := Sum.inl.inj h
      refine ⟨rfl, rfl, ⟨_, rfl⟩, ?_⟩
      intro e he
      exact Event.early_not_late e (hearly e he)
    · rw [hs] at h
      rcases allocate_cases env (getCmember env nargin pargin) (getKnobs env nargin pargin)
          (!(pargin 0).isSparse) Ainput (convTrace env nargin pargin printed) with
        ⟨_, ha⟩ | ⟨_, _, ha⟩ | ⟨_, _, ha⟩ | ⟨_, _, _, ha⟩ | ⟨h2, hb, h4, ha⟩
      · rw [ha] at h
        obtain rfl := Sum.inl.inj h
        refine ⟨rfl, rfl, ⟨_, rfl⟩, ?_⟩
        intro e he
        rcases List.mem_append.mp he with he | he
        · exact Event.early_not_late e (hearly e he)
        · rw [List.mem_singleton.mp he]
          simp [Event.late]
      · rw [ha] at h
        obtain rfl := Sum.inl.inj h
        refine ⟨rfl, rfl, ⟨_, rfl⟩, ?_⟩
        intro e he
        rcases List.mem_append.mp he with he | he
        · exact Event.early_not_late e (hearly e he)
        · simp at he
          rcases he with rfl | rfl <;> simp [Event.late]
      · rw [ha] at h
        obtain rfl := Sum.inl.inj h
        refine ⟨rfl, rfl, ⟨_, rfl⟩, ?_⟩
        intro e he
        rcases List.mem_append.mp he with he | he
        · exact Event.early_not_late e (hearly e he)
        · simp at he
          rcases he with rfl | rfl | rfl <;> simp [Event.late]
      · rw [ha] at h
        obtain rfl := Sum.inl.inj h
        refine ⟨rfl, rfl, ⟨_, rfl⟩, ?_⟩
        intro e he
        rcases List.mem_append.mp he with he | he
        · exact Event.early_not_late e (hearly e he)
        · exact allocTrace_not_late env _ Ainput e he
      · rw [ha] at h
        exact absurd h (by simp)

theorem setup_inr_trace (env : Env) (nargout nargin : Int) (pargin : Nat → MxArray)
    (s : Setup) (h : setup env nargout nargin pargin = .inr s) :
    ∀ e ∈ s.trace, ¬ e.late := by
  obtain ⟨_, _, printed, Ainput, hp, _, _, _, _, rfl⟩ := setup_inr env nargout nargin pargin s h
  intro e he
  rcases List.mem_append.mp he with he | he
  · exact Event.early_not_late e (convTrace_early env nargin pargin printed hp e he)
  · exact allocTrace_not_late env _ Ainput e he

/-- The run from line 183 on when the engine reports success. -/
theorem order_ok (env : Env) (nargout : Int) (s : Setup)
    (hok : (env.ccolamd_l s.args).ok = true) :
    order env nargout s =
      ⟨(if s.spumoni ≠ 0 then
          s.trace ++ [.ccolamd_l s.args] ++ [.mxFree .A, .mxFree .cmember, .mxFree .p] ++
            [.ccolamd_l_report (statsOf env (env.ccolamd_l s.args))]
        else s.trace ++ [.ccolamd_l s.args] ++ [.mxFree .A, .mxFree .cmember, .mxFree .p]),
        some (out_perm s.args.n_col (env.ccolamd_l s.args).p),
        (if nargout = 2 then some (out_stats env (env.ccolamd_l s.args).stats) else none),
        none⟩ := by
  unfold order
  simp only [hok, Bool.not_true, Bool.false_eq_true, if_false]
  split_ifs <;> rfl

/-- The run from line 183 on when the engine reports failure. -/
theorem order_fail (env : Env) (nargout : Int) (s : Setup)
    (hok : (env.ccolamd_l s.args).ok = false) :
    order env nargout s =
      Run.raise (s.trace ++ [.ccolamd_l s.args] ++
          [.ccolamd_l_report (statsOf env (env.ccolamd_l s.args))])
        (.mexErrMsgTxt "ccolamd error!") := by
  unfold order
  simp only [hok, Bool.not_false, if_true]

/-- The engine is called in a run exactly when the sections before it end
without an error, and then with the arguments they prepared. -/
theorem engine_mem_iff (env : Env) (nargout nargin : Int) (pargin : Nat → MxArray)
    (a : EngineArgs) :
    Event.ccolamd_l a ∈ (mexFunction env nargout nargin pargin).trace ↔
      ∃ s, setup env nargout nargin pargin = .inr s ∧ s.args = a := by
  unfold mexFunction
  cases hs : setup env nargout nargin pargin with
  | inl r =>
    simp only [false_and, exists_false, iff_false, reduceCtorEq]
    intro hmem
    exact (setup_inl env nargout nargin pargin r hs).2.2.2 _ hmem trivial
  | inr s =>
    have hno := setup_inr_trace env nargout nargin pargin s hs
    have hno' : Event.ccolamd_l a ∉ s.trace := fun hm => hno _ hm trivial
    simp only [Sum.inr.injEq, exists_eq_left']
    cases hok : (env.ccolamd_l s.args).ok with
    | false =>
      rw [order_fail env nargout s hok]
      simp [Run.raise, hno']
      exact eq_comm
    | true =>
      rw [order_ok env nargout s hok]
      split_ifs <;> simp [hno'] <;> exact eq_comm

/-! ## The claims -/

theorem wrap64_eq (v : Int) (h1 : -2 ^ 63 ≤ v) (h2 : v < 2 ^ 63) : wrap64 v = v := by
  unfold wrap64
  omega

theorem Dbl.round_exact (num : Int) (exp : Nat) (h : num.natAbs ≤ 2 ^ 53) :
    Dbl.round num exp = ⟨num, exp⟩ := by
  unfold Dbl.round
  rw [if_pos h]

theorem Dbl.ofInt64_exact (v : Int) (h1 : -2 ^ 53 ≤ v) (h2 : v ≤ 2 ^ 53) :
    Dbl.ofInt64 v = ⟨v, 0⟩ :=
  Dbl.round_exact v 0 (by omega)

theorem Dbl.incr_exact (v : Int) (h1 : -2 ^ 53 ≤ v + 1) (h2 : v + 1 ≤ 2 ^ 53) :
    (Dbl.mk v 0).incr = ⟨v + 1, 0⟩ := by
  unfold Dbl.incr
  simp only [pow_zero]
  exact Dbl.round_exact (v + 1) 0 (by omega)

theorem out_perm_length (n_col : Int) (p : Nat → Int) :
    (out_perm n_col p).length = n_col.toNat := by
  simp [out_perm]

theorem out_perm_getElem (n_col : Int) (p : Nat → Int) (i : Nat)
    (h : i < (out_perm n_col p).length) :
    (out_perm n_col p)[i] = Dbl.ofInt64 (wrap64 (p i + 1)) := by
  simp [out_perm]

theorem out_perm_exact (n_col : Int) (p : Nat → Int) (i : Nat)
    (h : i < (out_perm n_col p).length) (h1 : -2 ^ 53 ≤ p i + 1) (h2 : p i + 1 ≤ 2 ^ 53) :
    (out_perm n_col p)[i] = ⟨p i + 1, 0⟩ := by
  rw [out_perm_getElem, wrap64_eq _ (by omega) (by omega), Dbl.ofInt64_exact _ h1 h2]

/-- A run in which the engine is called with `a` and reports success. -/
theorem run_ok (env : Env) (nargout nargin : Int) (pargin : Nat → MxArray) (a : EngineArgs)
    (hcall : Event.ccolamd_l a ∈ (mexFunction env nargout nargin pargin).trace)
    (hok : (env.ccolamd_l a).ok = true) :
    ∃ s, setup env nargout nargin pargin = .inr s ∧ s.args = a ∧
      mexFunction env nargout nargin pargin =
        ⟨(if s.spumoni ≠ 0 then
            s.trace ++ [.ccolamd_l a] ++ [.mxFree .A, .mxFree .cmember, .mxFree .p] ++
              [.ccolamd_l_report (statsOf env (env.ccolamd_l a))]
          else s.trace ++ [.ccolamd_l a] ++ [.mxFree .A, .mxFree .cmember, .mxFree .p]),
          some (out_perm a.n_col (env.ccolamd_l a).p),
          (if nargout = 2 then some (out_stats env (env.ccolamd_l a).stats) else none),
          none⟩ := by
  obtain ⟨s, hs, rfl⟩ := (engine_mem_iff env nargout nargin pargin a).mp hcall
  refine ⟨s, hs, rfl, ?_⟩
  unfold mexFunction
  rw [hs]
  exact order_ok env nargout s hok

/-- A run in which the engine is called with `a` and reports failure. -/
theorem run_fail (env : Env) (nargout nargin : Int) (pargin : Nat → MxArray) (a : EngineArgs)
    (hcall : Event.ccolamd_l a ∈ (mexFunction env nargout nargin pargin).trace)
    (hok : (env.ccolamd_l a).ok = false) :
    ∃ s, setup env nargout nargin pargin = .inr s ∧ s.args = a ∧
      mexFunction env nargout nargin pargin =
        Run.raise (s.trace ++ [.ccolamd_l a] ++
            [.ccolamd_l_report (statsOf env (env.ccolamd_l a))])
          (.mexErrMsgTxt "ccolamd error!") := by
  obtain ⟨s, hs, rfl⟩ := (engine_mem_iff env nargout nargin pargin a).mp hcall
  refine ⟨s, hs, rfl, ?_⟩
  unfold mexFunction
  rw [hs]
  exact order_fail env nargout s hok

/-- The engine's `n_col` is the number of columns of the matrix: not negative. -/
theorem engine_n_col_nonneg (env : Env) (nargout nargin : Int) (pargin : Nat → MxArray)
    (s : Setup) (hs : setup env nargout nargin pargin = .inr s) : 0 ≤ s.args.n_col := by
  obtain ⟨_, _, printed, Ainput, _, _, _, _, _, rfl⟩ := setup_inr env nargout nargin pargin s hs
  exact Int.ofNat_nonneg _

theorem out_stats_length (env : Env) (stats : Nat → Int) :
    (out_stats env stats).length = env.CCOLAMD_STATS := by
  simp [out_stats]

theorem out_stats_getElem? (env : Env) (hslots : InfoSlots env) (stats : Nat → Int)
    (k : Nat) (hk : k < env.CCOLAMD_STATS) :
    (out_stats env stats)[k]? =
      some (if k = env.CCOLAMD_INFO1 ∨ k = env.CCOLAMD_INFO2 then
        (Dbl.ofInt64 (stats k)).incr else Dbl.ofInt64 (stats k)) := by
  obtain ⟨h1, h2, h12⟩ := hslots
  unfold out_stats
  simp only [List.getElem?_set, List.length_set, List.length_map, List.length_range,
    List.getD_eq_getElem?_getD, List.getElem?_map]
  by_cases e2 : env.CCOLAMD_INFO2 = k
  · subst e2
    have e1 : ¬ env.CCOLAMD_INFO1 = env.CCOLAMD_INFO2 := h12
    simp [h1, h2, e1, List.getElem?_range]
  · by_cases e1 : env.CCOLAMD_INFO1 = k
    · subst e1
      simp [h1, h2, e2, List.getElem?_range]
    · have e1' : ¬ k = env.CCOLAMD_INFO1 := fun h => e1 h.symm
      have e2' : ¬ k = env.CCOLAMD_INFO2 := fun h => e2 h.symm
      simp [h1, h2, e1, e2, e1', e2', hk, List.getElem?_range]

theorem Dbl.incr_ofInt64_exact (v : Int) (h1 : -2 ^ 53 ≤ v) (h2 : v < 2 ^ 53) :
    (Dbl.ofInt64 v).incr = ⟨v + 1, 0⟩ := by
  rw [Dbl.ofInt64_exact v h1 (by omega)]
  exact Dbl.incr_exact v (by omega) (by omega)

/-- The statistics output is assigned only when two outputs are requested. -/
theorem pargout1_none (env : Env) (nargout nargin : Int) (pargin : Nat → MxArray)
    (h : nargout ≠ 2) : (mexFunction env nargout nargin pargin).pargout1 = none := by
  unfold mexFunction
  cases hs : setup env nargout nargin pargin with
  | inl r => exact (setup_inl env nargout nargin pargin r hs).2.1
  | inr s =>
    cases hok : (env.ccolamd_l s.args).ok with
    | false => simp only [order_fail env nargout s hok, Run.raise]
    | true => simp only [order_ok env nargout s hok, h, if_false]

/-- Claim C5: whenever the engine `ccolamd_l` is called and returns failure,
the last two external calls of the run are the engine and then
`ccolamd_l_report` on the engine's `stats`, the run ends with the error
"ccolamd error!", and neither `pargout [0]` nor `pargout [1]` is assigned. -/
theorem C5_engine_failure (env : Env) (nargout nargin : Int) (pargin : Nat → MxArray)
    (a : EngineArgs)
    (hcall : Event.ccolamd_l a ∈ (mexFunction env nargout nargin pargin).trace)
    (hfail : (env.ccolamd_l a).ok = false) :
    (∃ t, (mexFunction env nargout nargin pargin).trace =
      t ++ [.ccolamd_l a, .ccolamd_l_report (statsOf env (env.ccolamd_l a))]) ∧
    (mexFunction env nargout nargin pargin).err = some (.mexErrMsgTxt "ccolamd error!") ∧
    (mexFunction env nargout nargin pargin).pargout0 = none ∧
    (mexFunction env nargout nargin pargin).pargout1 = none := by
  obtain ⟨s, _, rfl, hrun⟩ := run_fail env nargout nargin pargin a hcall hfail
  rw [hrun]
  exact ⟨⟨s.trace, by simp [Run.raise]⟩, rfl, rfl, rfl⟩

/-- Claim C5 on the sample call with an engine that fails. -/
theorem C5_engine_failure_witness :
    Event.ccolamd_l sampleArgs ∈
      (mexFunction (sampleEnv false false) 2 1 (samplePargin [] [])).trace ∧
    ((sampleEnv false false).ccolamd_l sampleArgs).ok = false ∧
    (∃ t, (mexFunction (sampleEnv false false) 2 1 (samplePargin [] [])).trace =
      t ++ [.ccolamd_l sampleArgs,
        .ccolamd_l_report (statsOf (sampleEnv false false)
          ((sampleEnv false false).ccolamd_l sampleArgs))]) ∧
    (mexFunction (sampleEnv false false) 2 1 (samplePargin [] [])).err =
      some (.mexErrMsgTxt "ccolamd error!") ∧
    (mexFunction (sampleEnv false false) 2 1 (samplePargin [] [])).pargout0 = none ∧
    (mexFunction (sampleEnv false false) 2 1 (samplePargin [] [])).pargout1 = none :=
  ⟨by decide, by decide,
    C5_engine_failure (sampleEnv false false) 2 1 (samplePargin [] []) sampleArgs
      (by decide) (by decide)⟩

/-- The arguments of the engine call, in terms of the gateway's input. -/
theorem engine_args (env : Env) (nargout nargin : Int) (pargin : Nat → MxArray)
    (a : EngineArgs)
    (hcall : Event.ccolamd_l a ∈ (mexFunction env nargout nargin pargin).trace) :
    ¬ (nargin < 1 ∨ nargin > 3 ∨ nargout < 0 ∨ nargout > 2) ∧ (pargin 0).ndims = 2 ∧
    ∃ printed Ainput, echo env (getKnobs env nargin pargin) = some printed ∧
      getAinput env (pargin 0) = some Ainput ∧ AlenOf env Ainput ≠ 0 ∧
      CopiesInBounds env Ainput ∧
      ¬ ((getCmember env nargin pargin).cmember ≠ none ∧
          (getCmember env nargin pargin).cslen ≠ Ainput.n) ∧
      a = argsOf env nargin pargin Ainput ∧
      setup env nargout nargin pargin =
        .inr ⟨convTrace env nargin pargin printed ++
            allocTrace env (!(pargin 0).isSparse) Ainput,
          (getKnobs env nargin pargin).spumoni, a⟩ := by
  obtain ⟨s, hs, rfl⟩ := (engine_mem_iff env nargout nargin pargin a).mp hcall
  obtain ⟨hu, hd, printed, Ainput, hp, hA, h2, hb, h4, rfl⟩ :=
    setup_inr env nargout nargin pargin s hs
  exact ⟨hu, hd, printed, Ainput, hp, hA, h2, hb, h4, rfl, hs⟩

theorem Env.toInt64_eq (env : Env) (d : Dbl) (h1 : -2 ^ 63 ≤ d.trunc)
    (h2 : d.trunc < 2 ^ 63) : env.toInt64 d = d.trunc := by
  unfold Env.toInt64
  rw [if_pos ⟨h1, h2⟩]

/-- Claim C3, as the code has it: the constraint vector handed to the engine is
absent exactly when fewer than three arguments are given or the third has no
elements; otherwise it has the length of the third argument and entry `i` is
`(int64_t) in_cmember [i] - 1` computed in `int64_t`, which for an argument
entry with an integer value `v`, `-2 ^ 63 < v < 2 ^ 63`, is `v - 1`; among
such entries two are equal, or one is lower than the other, exactly when the
integer values of the argument's entries are. -/
theorem C3_cmember_translation (env : Env) (nargout nargin : Int) (pargin : Nat → MxArray)
    (a : EngineArgs)
    (hcall : Event.ccolamd_l a ∈ (mexFunction env nargout nargin pargin).trace) :
    (a.cmember = none ↔ (nargin < 3 ∨ mxGetNumberOfElements (pargin 2) = 0)) ∧
    ∀ ids, a.cmember = some ids →
      (ids.length : Int) = mxGetNumberOfElements (pargin 2) ∧
      (∀ i (h : i < (pargin 2).pr.length),
        ids[i]? = some (wrap64 (env.toInt64 ((pargin 2).pr[i]) - 1))) ∧
      (∀ i (h : i < (pargin 2).pr.length),
        -2 ^ 63 < ((pargin 2).pr[i]).trunc → ((pargin 2).pr[i]).trunc < 2 ^ 63 →
        ids[i]? = some (((pargin 2).pr[i]).trunc - 1)) ∧
      (∀ i j (hi : i < (pargin 2).pr.length) (hj : j < (pargin 2).pr.length) ci cj,
        -2 ^ 63 < ((pargin 2).pr[i]).trunc → ((pargin 2).pr[i]).trunc < 2 ^ 63 →
        -2 ^ 63 < ((pargin 2).pr[j]).trunc → ((pargin 2).pr[j]).trunc < 2 ^ 63 →
        ids[i]? = some ci → ids[j]? = some cj →
        (ci = cj ↔ ((pargin 2).pr[i]).trunc = ((pargin 2).pr[j]).trunc) ∧
        (ci < cj ↔ ((pargin 2).pr[i]).trunc < ((pargin 2).pr[j]).trunc)) := by
  obtain ⟨_, _, printed, Ainput, _, _, _, _, _, rfl, _⟩ :=
    engine_args env nargout nargin pargin a hcall
  have hcm : (argsOf env nargin pargin Ainput).cmember =
      (getCmember env nargin pargin).cmember := rfl
  rw [hcm]
  unfold getCmember
  by_cases h3 : nargin > 2
  · by_cases h0 : mxGetNumberOfElements (pargin 2) = 0
    · simp only [h3, if_true, h0, ne_eq, not_true_eq_false, if_false, or_true, iff_true,
        true_and]
      intro ids hc
      exact absurd hc (by simp)
    · have hn3 : ¬ nargin < 3 := by omega
      simp only [h3, if_true, h0, ne_eq, not_false_eq_true, hn3, or_self, iff_false,
        Option.some.injEq]
      refine ⟨by simp, ?_⟩
      rintro ids rfl
      have hget : ∀ i (h : i < (pargin 2).pr.length),
          (List.map (fun d : Dbl => wrap64 (env.toInt64 d - 1)) (pargin 2).pr)[i]? =
            some (wrap64 (env.toInt64 ((pargin 2).pr[i]) - 1)) := by
        intro i h
        simp [List.getElem?_eq_getElem h]
      have hex : ∀ i (h : i < (pargin 2).pr.length),
          -2 ^ 63 < ((pargin 2).pr[i]).trunc → ((pargin 2).pr[i]).trunc < 2 ^ 63 →
          (List.map (fun d : Dbl => wrap64 (env.toInt64 d - 1)) (pargin 2).pr)[i]? =
            some (((pargin 2).pr[i]).trunc - 1) := by
        intro i h h1 h2
        rw [hget i h, Env.toInt64_eq env _ (by omega) h2, wrap64_eq _ (by omega) (by omega)]
      refine ⟨by simp [mxGetNumberOfElements], hget, hex, ?_⟩
      intro i j hi hj ci cj hi1 hi2 hj1 hj2 hci hcj
      rw [hex i hi hi1 hi2] at hci
      rw [hex j hj hj1 hj2] at hcj
      obtain rfl := Option.some.inj hci
      obtain rfl := Option.some.inj hcj
      constructor <;> constructor <;> intro h <;> omega
  · have hn3 : nargin < 3 := by omega
    simp only [h3, if_false, hn3, true_or, iff_true, true_and]
    intro ids hc
    exact absurd hc (by simp)

theorem setKnobs_length (env : Env) (v d : List Dbl) :
    (setKnobs env v d).length = d.length := by
  unfold setKnobs
  simp only []
  split_ifs <;> simp

/-- The knobs beyond the fourth play no part in `setKnobs`. -/
theorem setKnobs_take (env : Env) (v d : List Dbl) :
    setKnobs env v d = setKnobs env (v.take 4) d := by
  rcases v with _ | ⟨k0, _ | ⟨k1, _ | ⟨k2, _ | ⟨k3, rest⟩⟩⟩⟩ <;> simp [setKnobs]

theorem setKnobs_slots (env : Env) (v d : List Dbl)
    (hLU : env.CCOLAMD_LU < d.length) (hDR : env.CCOLAMD_DENSE_ROW < d.length)
    (hDC : env.CCOLAMD_DENSE_COL < d.length) (hAG : env.CCOLAMD_AGGRESSIVE < d.length)
    (h01 : env.CCOLAMD_LU ≠ env.CCOLAMD_DENSE_ROW)
    (h02 : env.CCOLAMD_LU ≠ env.CCOLAMD_DENSE_COL)
    (h03 : env.CCOLAMD_LU ≠ env.CCOLAMD_AGGRESSIVE)
    (h12 : env.CCOLAMD_DENSE_ROW ≠ env.CCOLAMD_DENSE_COL)
    (h13 : env.CCOLAMD_DENSE_ROW ≠ env.CCOLAMD_AGGRESSIVE)
    (h23 : env.CCOLAMD_DENSE_COL ≠ env.CCOLAMD_AGGRESSIVE) :
    (∀ h : 0 < v.length,
      (setKnobs env v d)[env.CCOLAMD_LU]? =
        some (Dbl.ofInt64 (if (v[0]).ne0 then 1 else 0))) ∧
    (∀ h : 1 < v.length, (setKnobs env v d)[env.CCOLAMD_DENSE_ROW]? = some v[1]) ∧
    (∀ h : 2 < v.length, (setKnobs env v d)[env.CCOLAMD_DENSE_COL]? = some v[2]) ∧
    (∀ h : 3 < v.length,
      (setKnobs env v d)[env.CCOLAMD_AGGRESSIVE]? =
        some (Dbl.ofInt64 (if (v[3]).ne0 then 1 else 0))) ∧
    (v.length ≤ 0 → (setKnobs env v d)[env.CCOLAMD_LU]? = d[env.CCOLAMD_LU]?) ∧
    (v.length ≤ 1 → (setKnobs env v d)[env.CCOLAMD_DENSE_ROW]? = d[env.CCOLAMD_DENSE_ROW]?) ∧
    (v.length ≤ 2 → (setKnobs env v d)[env.CCOLAMD_DENSE_COL]? = d[env.CCOLAMD_DENSE_COL]?) ∧
    (v.length ≤ 3 →
      (setKnobs env v d)[env.CCOLAMD_AGGRESSIVE]? = d[env.CCOLAMD_AGGRESSIVE]?) ∧
    (∀ k, k ≠ env.CCOLAMD_LU → k ≠ env.CCOLAMD_DENSE_ROW → k ≠ env.CCOLAMD_DENSE_COL →
      k ≠ env.CCOLAMD_AGGRESSIVE → (setKnobs env v d)[k]? = d[k]?) := by
  have g01 := h01.symm
  have g02 := h02.symm
  have g03 := h03.symm
  have g12 := h12.symm
  have g13 := h13.symm
  have g23 := h23.symm
  refine ⟨?_, ?_, ?_, ?_, ?_, ?_, ?_, ?_, ?_⟩
  · intro h
    unfold setKnobs
    simp only [h, dite_true]
    split_ifs <;> simp [List.getElem?_set, *, Dbl.ofBool]
  · intro h
    have h0 : 0 < v.length := by omega
    unfold setKnobs
    simp only [h, h0, dite_true]
    split_ifs <;> simp [List.getElem?_set, *]
  · intro h
    have h0 : 0 < v.length := by omega
    have h1 : 1 < v.length := by omega
    unfold setKnobs
    simp only [h, h0, h1, dite_true]
    split_ifs <;> simp [List.getElem?_set, *]
  · intro h
    have h0 : 0 < v.length := by omega
    have h1 : 1 < v.length := by omega
    have h2 : 2 < v.length := by omega
    unfold setKnobs
    simp only [h, h0, h1, h2, dite_true]
    simp [List.getElem?_set, *, Dbl.ofBool]
  · intro h
    have h0 : ¬ 0 < v.length := by omega
    have h1 : ¬ 1 < v.length := by omega
    have h2 : ¬ 2 < v.length := by omega
    have h3 : ¬ 3 < v.length := by omega
    unfold setKnobs
    simp only [h0, h1, h2, h3, dite_false]
  · intro h
    have h1 : ¬ 1 < v.length := by omega
    have h2 : ¬ 2 < v.length := by omega
    have h3 : ¬ 3 < v.length := by omega
    unfold setKnobs
    simp only [h1, h2, h3, dite_false]
    split_ifs <;> simp [List.getElem?_set, *]
  · intro h
    have h2 : ¬ 2 < v.length := by omega
    have h3 : ¬ 3 < v.length := by omega
    unfold setKnobs
    simp only [h2, h3, dite_false]
    split_ifs <;> simp [List.getElem?_set, *]
  · intro h
    have h3 : ¬ 3 < v.length := by omega
    unfold setKnobs
    simp only [h3, dite_false]
    split_ifs <;> simp [List.getElem?_set, *]
  · intro k k0 k1 k2 k3
    have e0 := k0.symm
    have e1 := k1.symm
    have e2 := k2.symm
    have e3 := k3.symm
    unfold setKnobs
    simp only []
    split_ifs <;> simp [List.getElem?_set, *]

theorem engine_knobs (env : Env) (nargout nargin : Int) (pargin : Nat → MxArray)
    (a : EngineArgs)
    (hcall : Event.ccolamd_l a ∈ (mexFunction env nargout nargin pargin).trace) :
    a.knobs = if nargin > 1 then setKnobs env (pargin 1).pr env.ccolamd_l_set_defaults
      else env.ccolamd_l_set_defaults := by
  obtain ⟨_, _, printed, Ainput, _, _, _, _, _, rfl, _⟩ :=
    engine_args env nargout nargin pargin a hcall
  have hk : (argsOf env nargin pargin Ainput).knobs = (getKnobs env nargin pargin).knobs := rfl
  rw [hk]
  unfold getKnobs
  split_ifs <;> rfl

/-- Claim C7: the knobs handed to the engine are the defaults overridden
position by position by the user's knobs vector `in_knobs` of length `i`:
slot `CCOLAMD_LU` is 1 or 0 as `in_knobs [0] != 0` when `i > 0`, slot
`CCOLAMD_DENSE_ROW` is `in_knobs [1]` when `i > 1`, slot `CCOLAMD_DENSE_COL` is
`in_knobs [2]` when `i > 2`, slot `CCOLAMD_AGGRESSIVE` is 1 or 0 as
`in_knobs [3] != 0` when `i > 3`; a slot whose position is `>= i` keeps its
default, as does every other slot, and all slots when no knobs argument is
given; entries of `in_knobs` from the fifth on change no knob, the fifth
sets the verbosity flag `spumoni`. -/
theorem C7_knobs_override (env : Env) (hslots : KnobSlots env) (nargout nargin : Int)
    (pargin : Nat → MxArray) (a : EngineArgs)
    (hcall : Event.ccolamd_l a ∈ (mexFunction env nargout nargin pargin).trace) :
    (nargin > 1 →
      (∀ h : 0 < (pargin 1).pr.length,
        a.knobs[env.CCOLAMD_LU]? =
          some (Dbl.ofInt64 (if ((pargin 1).pr[0]).ne0 then 1 else 0))) ∧
      (∀ h : 1 < (pargin 1).pr.length,
        a.knobs[env.CCOLAMD_DENSE_ROW]? = some (pargin 1).pr[1]) ∧
      (∀ h : 2 < (pargin 1).pr.length,
        a.knobs[env.CCOLAMD_DENSE_COL]? = some (pargin 1).pr[2]) ∧
      (∀ h : 3 < (pargin 1).pr.length,
        a.knobs[env.CCOLAMD_AGGRESSIVE]? =
          some (Dbl.ofInt64 (if ((pargin 1).pr[3]).ne0 then 1 else 0))) ∧
      ((pargin 1).pr.length ≤ 0 →
        a.knobs[env.CCOLAMD_LU]? = env.ccolamd_l_set_defaults[env.CCOLAMD_LU]?) ∧
      ((pargin 1).pr.length ≤ 1 →
        a.knobs[env.CCOLAMD_DENSE_ROW]? =
          env.ccolamd_l_set_defaults[env.CCOLAMD_DENSE_ROW]?) ∧
      ((pargin 1).pr.length ≤ 2 →
        a.knobs[env.CCOLAMD_DENSE_COL]? =
          env.ccolamd_l_set_defaults[env.CCOLAMD_DENSE_COL]?) ∧
      ((pargin 1).pr.length ≤ 3 →
        a.knobs[env.CCOLAMD_AGGRESSIVE]? =
          env.ccolamd_l_set_defaults[env.CCOLAMD_AGGRESSIVE]?) ∧
      (∀ k, k ≠ env.CCOLAMD_LU → k ≠ env.CCOLAMD_DENSE_ROW →
        k ≠ env.CCOLAMD_DENSE_COL → k ≠ env.CCOLAMD_AGGRESSIVE →
        a.knobs[k]? = env.ccolamd_l_set_defaults[k]?)) ∧
    (nargin ≤ 1 → a.knobs = env.ccolamd_l_set_defaults) ∧
    a.knobs.length = env.CCOLAMD_KNOBS ∧
    (∀ (pargin2 : Nat → MxArray) (a2 : EngineArgs),
      (pargin2 1).pr.take 4 = (pargin 1).pr.take 4 →
      Event.ccolamd_l a2 ∈ (mexFunction env nargout nargin pargin2).trace →
      a2.knobs = a.knobs) ∧
    (nargin > 1 → ∀ h : 4 < (pargin 1).pr.length,
      (getKnobs env nargin pargin).spumoni = if ((pargin 1).pr[4]).ne0 then 1 else 0) := by
  obtain ⟨hlen, hLU, hDR, hDC, hAG, h01, h02, h03, h12, h13, h23⟩ := hslots
  have hk := engine_knobs env nargout nargin pargin a hcall
  refine ⟨?_, ?_, ?_, ?_, ?_⟩
  · intro h1
    rw [if_pos h1] at hk
    rw [hk]
    exact setKnobs_slots env (pargin 1).pr env.ccolamd_l_set_defaults
      (by omega) (by omega) (by omega) (by omega) h01 h02 h03 h12 h13 h23
  · intro h1
    rw [if_neg (by omega)] at hk
    exact hk
  · rw [hk]
    split_ifs
    · rw [setKnobs_length, hlen]
    · exact hlen
  · intro pargin2 a2 htake hcall2
    have hk2 := engine_knobs env nargout nargin pargin2 a2 hcall2
    rw [hk, hk2]
    split_ifs
    · rw [setKnobs_take env (pargin2 1).pr, setKnobs_take env (pargin 1).pr, htake]
    · rfl
  · intro h1 h4
    unfold getKnobs
    rw [if_pos h1]
    show getSpumoni (pargin 1).pr = _
    unfold getSpumoni
    rw [dif_pos h4]

/-- Claim C7 on the sample call with the knobs `[1, 0.5, -1, 0, 0, 7]`: the
engine receives LU mode 1, dense-row threshold 0.5, dense-column threshold -1
and aggressive absorption 0. -/
theorem C7_knobs_override_witness :
    KnobSlots (sampleEnv true false) ∧
    Event.ccolamd_l (sampleArgsWith sampleKnobsArray none) ∈
      (mexFunction (sampleEnv true false) 1 2 (samplePargin sampleKnobs [])).trace ∧
    sampleKnobsArray[3]? = some (Dbl.ofInt64 1) ∧
    sampleKnobsArray[0]? = some ⟨1, 1⟩ ∧
    sampleKnobsArray[1]? = some (Dbl.ofInt64 (-1)) ∧
    sampleKnobsArray[2]? = some (Dbl.ofInt64 0) ∧
    sampleKnobsArray.length = 20 :=
  have h := C7_knobs_override (sampleEnv true false) (by decide) 1 2
    (samplePargin sampleKnobs []) (sampleArgsWith sampleKnobsArray none) (by decide)
  ⟨by decide, by decide, (h.1 (by decide)).1 (by decide), (h.1 (by decide)).2.1 (by decide),
    (h.1 (by decide)).2.2.1 (by decide), (h.1 (by decide)).2.2.2.1 (by decide), h.2.2.1⟩

theorem order_trace (env : Env) (nargout : Int) (s : Setup) :
    ∀ e ∈ s.trace, e ∈ (order env nargout s).trace := by
  intro e he
  cases hok : (env.ccolamd_l s.args).ok with
  | false =>
    rw [order_fail env nargout s hok]
    simp [Run.raise, he]
  | true =>
    rw [order_ok env nargout s hok]
    split_ifs <;> simp [he]

theorem workspaceOf_length (env : Env) (Ainput : MxArray) (hb : CopiesInBounds env Ainput) :
    ((workspaceOf env Ainput).length : Int) = AlenOf env Ainput := by
  obtain ⟨_, h0, h1, h2⟩ := hb
  unfold workspaceOf
  rw [List.length_append, List.length_take, List.length_replicate]
  omega

theorem workspaceOf_copied (env : Env) (Ainput : MxArray) (hb : CopiesInBounds env Ainput)
    (k : Nat) (hk : (k : Int) < nnzOf Ainput) :
    k < Ainput.ir.length ∧ (workspaceOf env Ainput)[k]? = Ainput.ir[k]? := by
  obtain ⟨_, h0, h1, h2⟩ := hb
  have hk' : k < (nnzOf Ainput).toNat := by omega
  refine ⟨by omega, ?_⟩
  unfold workspaceOf
  rw [List.getElem?_append_left (by rw [List.length_take]; omega)]
  rw [List.getElem?_take, if_pos hk']

theorem workspaceOf_zero (env : Env) (Ainput : MxArray) (hb : CopiesInBounds env Ainput)
    (k : Nat) (hk : nnzOf Ainput ≤ (k : Int)) (hk2 : (k : Int) < AlenOf env Ainput) :
    (workspaceOf env Ainput)[k]? = some 0 := by
  obtain ⟨_, h0, h1, h2⟩ := hb
  unfold workspaceOf
  have hlen : (List.take (nnzOf Ainput).toNat Ainput.ir).length = (nnzOf Ainput).toNat := by
    rw [List.length_take]
    omega
  rw [List.getElem?_append_right (by rw [hlen]; omega), hlen]
  rw [List.getElem?_replicate]
  rw [if_pos (by omega)]

/-- Claim C9: whenever the engine is called, `p` has `n_col + 1` entries and
equals the column offsets `Jc` of the input entry for entry, `Alen` is
`ccolamd_l_recommended (p [n_col], n_row, n_col)` and is not zero, and the
workspace `A` has `Alen` entries, `A [k] = Ir [k]` for `k < nnz = p [n_col]`
and `A [k] = 0` for `nnz <= k < Alen`; both arrays were allocated by the
gateway in this run, so the engine works on copies. -/
theorem C9_engine_gets_copies (env : Env) (nargout nargin : Int) (pargin : Nat → MxArray)
    (a : EngineArgs)
    (hcall : Event.ccolamd_l a ∈ (mexFunction env nargout nargin pargin).trace) :
    ∃ Ainput, getAinput env (pargin 0) = some Ainput ∧
      a.n_row = Ainput.m ∧ a.n_col = Ainput.n ∧
      (a.p.length : Int) = a.n_col + 1 ∧
      (∀ k, k < Ainput.n + 1 → a.p[k]? = Ainput.jc[k]?) ∧
      a.Alen = env.ccolamd_l_recommended (a.p.getD Ainput.n 0) a.n_row a.n_col ∧
      a.Alen ≠ 0 ∧
      (a.A.length : Int) = a.Alen ∧
      (∀ k : Nat, (k : Int) < a.p.getD Ainput.n 0 →
        k < Ainput.ir.length ∧ a.A[k]? = Ainput.ir[k]?) ∧
      (∀ k : Nat, a.p.getD Ainput.n 0 ≤ (k : Int) → (k : Int) < a.Alen → a.A[k]? = some 0) ∧
      Event.mxCalloc .p (a.n_col + 1) ∈ (mexFunction env nargout nargin pargin).trace ∧
      Event.mxCalloc .A a.Alen ∈ (mexFunction env nargout nargin pargin).trace := by
  obtain ⟨_, _, printed, Ainput, _, hA, h2, hb, _, rfl, hs⟩ :=
    engine_args env nargout nargin pargin a hcall
  have hmem : ∀ e ∈ allocTrace env (!(pargin 0).isSparse) Ainput,
      e ∈ (mexFunction env nargout nargin pargin).trace := by
    intro e he
    unfold mexFunction
    rw [hs]
    exact order_trace env nargout _ e (List.mem_append_right _ he)
  refine ⟨Ainput, hA, rfl, rfl, ?_, ?_, rfl, h2, workspaceOf_length env Ainput hb,
    workspaceOf_copied env Ainput hb, workspaceOf_zero env Ainput hb, ?_, ?_⟩
  · show ((List.take (Ainput.n + 1) Ainput.jc).length : Int) = (Ainput.n : Int) + 1
    rw [List.length_take]
    have := hb.1
    omega
  · intro k hk
    show (List.take (Ainput.n + 1) Ainput.jc)[k]? = Ainput.jc[k]?
    rw [List.getElem?_take, if_pos hk]
  · exact hmem _ (by simp [allocTrace, argsOf])
  · exact hmem _ (by simp [allocTrace, argsOf])

/-- Claim C9 on the sample call: the engine receives the offsets `[0, 1, 2]`
and a workspace of 9 entries that starts with the row indices `[0, 1]`. -/
theorem C9_engine_gets_copies_witness :
    Event.ccolamd_l sampleArgs ∈
      (mexFunction (sampleEnv true false) 1 1 (samplePargin [] [])).trace ∧
    ∃ Ainput, getAinput (sampleEnv true false) (samplePargin [] [] 0) = some Ainput ∧
      sampleArgs.n_row = Ainput.m ∧ sampleArgs.n_col = Ainput.n ∧
      (sampleArgs.p.length : Int) = sampleArgs.n_col + 1 ∧
      (∀ k, k < Ainput.n + 1 → sampleArgs.p[k]? = Ainput.jc[k]?) ∧
      sampleArgs.Alen = (sampleEnv true false).ccolamd_l_recommended
        (sampleArgs.p.getD Ainput.n 0) sampleArgs.n_row sampleArgs.n_col ∧
      sampleArgs.Alen ≠ 0 ∧
      (sampleArgs.A.length : Int) = sampleArgs.Alen ∧
      (∀ k : Nat, (k : Int) < sampleArgs.p.getD Ainput.n 0 →
        k < Ainput.ir.length ∧ sampleArgs.A[k]? = Ainput.ir[k]?) ∧
      (∀ k : Nat, sampleArgs.p.getD Ainput.n 0 ≤ (k : Int) → (k : Int) < sampleArgs.Alen →
        sampleArgs.A[k]? = some 0) ∧
      Event.mxCalloc .p (sampleArgs.n_col + 1) ∈
        (mexFunction (sampleEnv true false) 1 1 (samplePargin [] [])).trace ∧
      Event.mxCalloc .A sampleArgs.Alen ∈
        (mexFunction (sampleEnv true false) 1 1 (samplePargin [] [])).trace :=
  ⟨by decide,
    C9_engine_gets_copies (sampleEnv true false) 1 1 (samplePargin [] []) sampleArgs
      (by decide)⟩

theorem raise_err (t : List Event) (e : Err) : (Run.raise t e).err = some e := rfl

theorem raise_trace (t : List Event) (e : Err) : (Run.raise t e).trace = t := rfl

/-- Every run is one of nine paths through the gateway. -/
theorem run_cases (env : Env) (nargout nargin : Int) (pargin : Nat → MxArray) :
    ((nargin < 1 ∨ nargin > 3 ∨ nargout < 0 ∨ nargout > 2) ∧
      mexFunction env nargout nargin pargin =
        Run.raise [] (.mexErrMsgTxt "Usage: [p stats] = ccolamd (A, knobs, cmember)")) ∨
    (¬ (nargin < 1 ∨ nargin > 3 ∨ nargout < 0 ∨ nargout > 2) ∧
      ∃ printed, echo env (getKnobs env nargin pargin) = some printed ∧
        (((pargin 0).ndims ≠ 2 ∧
          mexFunction env nargout nargin pargin =
            Run.raise (echoTrace env nargin pargin printed)
              (.mexErrMsgTxt "ccolamd: input matrix must be 2-dimensional")) ∨
        ((pargin 0).ndims = 2 ∧ getAinput env (pargin 0) = none ∧
          mexFunction env nargout nargin pargin =
            Run.raise (convTrace env nargin pargin printed) .mexCallMATLAB) ∨
        ((pargin 0).ndims = 2 ∧ ∃ Ainput, getAinput env (pargin 0) = some Ainput ∧
          ((Ainput.jc.length < Ainput.n + 1 ∧
            mexFunction env nargout nargin pargin =
              Run.raise (convTrace env nargin pargin printed ++
                [.mxCalloc .p ((Ainput.n : Int) + 1)]) (.undefined .p)) ∨
          (Ainput.n + 1 ≤ Ainput.jc.length ∧ AlenOf env Ainput = 0 ∧
            mexFunction env nargout nargin pargin =
              Run.raise (convTrace env nargin pargin printed ++
                [.mxCalloc .p ((Ainput.n : Int) + 1),
                  .ccolamd_l_recommended (nnzOf Ainput) Ainput.m Ainput.n])
                (.mexErrMsgTxt "ccolamd: problem too large")) ∨
          (AlenOf env Ainput ≠ 0 ∧ ¬ CopiesInBounds env Ainput ∧
            mexFunction env nargout nargin pargin =
              Run.raise (convTrace env nargin pargin printed ++
                [.mxCalloc .p ((Ainput.n : Int) + 1),
                  .ccolamd_l_recommended (nnzOf Ainput) Ainput.m Ainput.n,
                  .mxCalloc .A (AlenOf env Ainput)]) (.undefined .A)) ∨
          (AlenOf env Ainput ≠ 0 ∧ CopiesInBounds env Ainput ∧
            ((getCmember env nargin pargin).cmember ≠ none ∧
              (getCmember env nargin pargin).cslen ≠ Ainput.n) ∧
            mexFunction env nargout nargin pargin =
              Run.raise (convTrace env nargin pargin printed ++
                  allocTrace env (!(pargin 0).isSparse) Ainput)
                (.mexErrMsgTxt "ccolamd: cmember must be of length equal to #cols of A")) ∨
          (AlenOf env Ainput ≠ 0 ∧ CopiesInBounds env Ainput ∧
            ¬ ((getCmember env nargin pargin).cmember ≠ none ∧
              (getCmember env nargin pargin).cslen ≠ Ainput.n) ∧
            mexFunction env nargout nargin pargin =
              order env nargout
                ⟨convTrace env nargin pargin printed ++
                    allocTrace env (!(pargin 0).isSparse) Ainput,
                  (getKnobs env nargin pargin).spumoni,
                  argsOf env nargin pargin Ainput⟩))))) := by
  unfold mexFunction
  rcases setup_cases env nargout nargin pargin with ⟨hu, hs⟩ | ⟨hu, printed, hp, hc⟩
  · left
    exact ⟨hu, by rw [hs]⟩
  · right
    refine ⟨hu, printed, hp, ?_⟩
    rcases hc with ⟨hd, hs⟩ | ⟨hd, hA, hs⟩ | ⟨hd, Ainput, hA, hs⟩
    · left
      exact ⟨hd, by rw [hs]⟩
    · right
      left
      exact ⟨hd, hA, by rw [hs]⟩
    · right
      right
      refine ⟨hd, Ainput, hA, ?_⟩
      rw [hs]
      rcases allocate_cases env (getCmember env nargin pargin) (getKnobs env nargin pargin)
          (!(pargin 0).isSparse) Ainput (convTrace env nargin pargin printed) with
        ⟨h1, ha⟩ | ⟨h1, h2, ha⟩ | ⟨h2, hb, ha⟩ | ⟨h2, hb, h4, ha⟩ | ⟨h2, hb, h4, ha⟩
      · left
        exact ⟨h1, by rw [ha]⟩
      · right
        left
        exact ⟨h1, h2, by rw [ha]⟩
      · right
        right
        left
        exact ⟨h2, hb, by rw [ha]⟩
      · right
        right
        right
        left
        exact ⟨h2, hb, h4, by rw [ha]⟩
      · right
        right
        right
        right
        exact ⟨h2, hb, h4, by rw [ha]; rfl⟩

/-- The last section ends either without an error or with "ccolamd error!". -/
theorem order_err (env : Env) (nargout : Int) (s : Setup) :
    (order env nargout s).err = none ∨
      (order env nargout s).err = some (.mexErrMsgTxt "ccolamd error!") := by
  cases hok : (env.ccolamd_l s.args).ok with
  | false =>
    right
    rw [order_fail env nargout s hok]
    rfl
  | true =>
    left
    rw [order_ok env nargout s hok]

/-- Claim C8: the run ends with the usage error exactly when `nargin < 1` or
`nargin > 3` or `nargout < 0` or `nargout > 2`; it is then the first effect of
the call: the trace is empty (no argument is read, no size is computed, the
engine is not called) and no output is assigned. -/
theorem C8_usage_error (env : Env) (nargout nargin : Int) (pargin : Nat → MxArray) :
    ((mexFunction env nargout nargin pargin).err =
        some (.mexErrMsgTxt "Usage: [p stats] = ccolamd (A, knobs, cmember)") ↔
      (nargin < 1 ∨ nargin > 3 ∨ nargout < 0 ∨ nargout > 2)) ∧
    ((nargin < 1 ∨ nargin > 3 ∨ nargout < 0 ∨ nargout > 2) →
      (mexFunction env nargout nargin pargin).trace = [] ∧
      (mexFunction env nargout nargin pargin).pargout0 = none ∧
      (mexFunction env nargout nargin pargin).pargout1 = none) := by
  rcases run_cases env nargout nargin pargin with ⟨hu, hr⟩ | ⟨hu, printed, hp, hc⟩
  · rw [hr]
    exact ⟨⟨fun _ => hu, fun _ => rfl⟩, fun _ => ⟨rfl, rfl, rfl⟩⟩
  · refine ⟨⟨fun h => ?_, fun h => absurd h hu⟩, fun h => absurd h hu⟩
    exfalso
    rcases hc with ⟨_, hr⟩ | ⟨_, _, hr⟩ | ⟨_, Ainput, _, hc⟩
    · rw [hr, raise_err] at h
      exact absurd h (by decide)
    · rw [hr, raise_err] at h
      exact absurd h (by decide)
    · rcases hc with ⟨_, hr⟩ | ⟨_, _, hr⟩ | ⟨_, _, hr⟩ | ⟨_, _, _, hr⟩ | ⟨_, _, _, hr⟩
      · rw [hr, raise_err] at h
        exact absurd h (by decide)
      · rw [hr, raise_err] at h
        exact absurd h (by decide)
      · rw [hr, raise_err] at h
        exact absurd h (by decide)
      · rw [hr, raise_err] at h
        exact absurd h (by decide)
      · rw [hr] at h
        rcases order_err env nargout
          ⟨convTrace env nargin pargin printed ++
              allocTrace env (!(pargin 0).isSparse) Ainput,
            (getKnobs env nargin pargin).spumoni, argsOf env nargin pargin Ainput⟩ with
          he | he
        · rw [he] at h
          exact absurd h (by simp)
        · rw [he] at h
          exact absurd h (by decide)

/-- Claim C8 on a call with four arguments: the usage error, an empty trace
and no output. -/
theorem C8_usage_error_witness :
    ((4 : Int) < 1 ∨ (4 : Int) > 3 ∨ (1 : Int) < 0 ∨ (1 : Int) > 2) ∧
    (mexFunction (sampleEnv true false) 1 4 (samplePargin [] [])).err =
      some (.mexErrMsgTxt "Usage: [p stats] = ccolamd (A, knobs, cmember)") ∧
    (mexFunction (sampleEnv true false) 1 4 (samplePargin [] [])).trace = [] ∧
    (mexFunction (sampleEnv true false) 1 4 (samplePargin [] [])).pargout0 = none ∧
    (mexFunction (sampleEnv true false) 1 4 (samplePargin [] [])).pargout1 = none :=
  ⟨by decide,
    (C8_usage_error (sampleEnv true false) 1 4 (samplePargin [] [])).1.mpr (by decide),
    (C8_usage_error (sampleEnv true false) 1 4 (samplePargin [] [])).2 (by decide)⟩

theorem order_trace_late (env : Env) (nargout : Int) (s : Setup) :
    ∀ e ∈ (order env nargout s).trace, e ∈ s.trace ∨ e.late := by
  intro e he
  cases hok : (env.ccolamd_l s.args).ok with
  | false =>
    rw [order_fail env nargout s hok, raise_trace] at he
    simp only [List.mem_append, List.mem_singleton] at he
    rcases he with (he | rfl) | rfl
    · exact Or.inl he
    · exact Or.inr trivial
    · exact Or.inr trivial
  | true =>
    rw [order_ok env nargout s hok] at he
    simp only [] at he
    split_ifs at he
    · simp only [List.mem_append, List.mem_singleton, List.mem_cons, List.not_mem_nil,
        or_false] at he
      rcases he with ((he | rfl) | rfl | rfl | rfl) | rfl
      · exact Or.inl he
      all_goals exact Or.inr trivial
    · simp only [List.mem_append, List.mem_singleton, List.mem_cons, List.not_mem_nil,
        or_false] at he
      rcases he with (he | rfl) | rfl | rfl | rfl
      · exact Or.inl he
      all_goals exact Or.inr trivial

theorem getKnobs_spumoni_zero (env : Env) (nargin : Int) (pargin : Nat → MxArray)
    (h : nargin ≤ 1 ∨ mxGetNumberOfElements (pargin 1) < 5) :
    (getKnobs env nargin pargin).spumoni = 0 := by
  by_contra hne
  obtain ⟨h1, _, h4, _⟩ := getKnobs_spumoni env nargin pargin hne
  unfold mxGetNumberOfElements at h
  omega

theorem convTrace_silent (env : Env) (nargin : Int) (pargin : Nat → MxArray) :
    ∀ e ∈ convTrace env nargin pargin [], ¬ e.prints := by
  intro e he
  unfold convTrace echoTrace at he
  have key : e ∈ (getCmember env nargin pargin).trace ∨ e ∈ (getKnobs env nargin pargin).trace ∨
      e = .mexCallMATLAB := by
    split_ifs at he <;> simp only [List.mem_append, List.mem_singleton, List.not_mem_nil,
      or_false] at he <;> tauto
  rcases key with he | he | rfl
  · rcases getCmember_trace env nargin pargin e he with rfl | rfl <;> simp [Event.prints]
  · rw [getKnobs_trace env nargin pargin e he]
    simp [Event.prints]
  · simp [Event.prints]

theorem allocTrace_silent (env : Env) (full : Bool) (Ainput : MxArray) :
    ∀ e ∈ allocTrace env full Ainput, ¬ e.prints := by
  intro e he
  unfold allocTrace at he
  cases full <;> simp at he <;> rcases he with rfl | rfl | rfl | rfl <;> simp [Event.prints]

/-- Claim C10: the verbosity flag `spumoni` is non-zero only if a knobs
argument is given, has more than 4 elements and `in_knobs [4] != 0`; hence the
echo's reads of `in_knobs [0]` to `in_knobs [4]` are all inside the user's
vector, and no run ends in a read outside it; and with no knobs argument, or
fewer than 5 knobs, a successful call prints nothing. -/
theorem C10_verbosity (env : Env) (nargout nargin : Int) (pargin : Nat → MxArray) :
    ((getKnobs env nargin pargin).spumoni ≠ 0 →
      nargin > 1 ∧ ∃ h : 4 < (pargin 1).pr.length, ((pargin 1).pr[4]).ne0 = true) ∧
    ((getKnobs env nargin pargin).spumoni ≠ 0 →
      (printKnobs env (getKnobs env nargin pargin).in_knobs
        (getKnobs env nargin pargin).knobs).isSome = true) ∧
    (mexFunction env nargout nargin pargin).err ≠ some (.undefined .in_knobs) ∧
    ((nargin ≤ 1 ∨ mxGetNumberOfElements (pargin 1) < 5) →
      (mexFunction env nargout nargin pargin).err = none →
      ∀ e ∈ (mexFunction env nargout nargin pargin).trace, ¬ e.prints) := by
  refine ⟨?_, ?_, ?_, ?_⟩
  · intro h
    obtain ⟨h1, _, h4⟩ := getKnobs_spumoni env nargin pargin h
    exact ⟨h1, h4⟩
  · intro h
    obtain ⟨_, hk, h4, _⟩ := getKnobs_spumoni env nargin pargin h
    rw [hk]
    exact printKnobs_isSome env _ _ h4
  · intro h
    rcases run_cases env nargout nargin pargin with ⟨_, hr⟩ | ⟨_, printed, _, hc⟩
    · rw [hr, raise_err] at h
      exact absurd h (by decide)
    · rcases hc with ⟨_, hr⟩ | ⟨_, _, hr⟩ | ⟨_, Ainput, _, hc⟩
      · rw [hr, raise_err] at h
        exact absurd h (by decide)
      · rw [hr, raise_err] at h
        exact absurd h (by decide)
      · rcases hc with ⟨_, hr⟩ | ⟨_, _, hr⟩ | ⟨_, _, hr⟩ | ⟨_, _, _, hr⟩ | ⟨_, _, _, hr⟩
        · rw [hr, raise_err] at h
          exact absurd h (by decide)
        · rw [hr, raise_err] at h
          exact absurd h (by decide)
        · rw [hr, raise_err] at h
          exact absurd h (by decide)
        · rw [hr, raise_err] at h
          exact absurd h (by decide)
        · rw [hr] at h
          rcases order_err env nargout
            ⟨convTrace env nargin pargin printed ++
                allocTrace env (!(pargin 0).isSparse) Ainput,
              (getKnobs env nargin pargin).spumoni, argsOf env nargin pargin Ainput⟩ with
            he | he
          · rw [he] at h
            exact absurd h (by simp)
          · rw [he] at h
            exact absurd h (by decide)
  · intro hk herr e he
    have hz := getKnobs_spumoni_zero env nargin pargin hk
    rcases run_cases env nargout nargin pargin with ⟨_, hr⟩ | ⟨_, printed, hp, hc⟩
    · rw [hr, raise_err] at herr
      exact absurd herr (by simp)
    · have hnil : printed = [] := by
        unfold echo at hp
        rw [if_neg (by rw [hz]; simp)] at hp
        exact (Option.some.inj hp).symm
      subst hnil
      rcases hc with ⟨_, hr⟩ | ⟨_, _, hr⟩ | ⟨_, Ainput, _, hc⟩
      · rw [hr, raise_err] at herr
        exact absurd herr (by simp)
      · rw [hr, raise_err] at herr
        exact absurd herr (by simp)
      · rcases hc with ⟨_, hr⟩ | ⟨_, _, hr⟩ | ⟨_, _, hr⟩ | ⟨_, _, _, hr⟩ | ⟨_, _, _, hr⟩
        · rw [hr, raise_err] at herr
          exact absurd herr (by simp)
        · rw [hr, raise_err] at herr
          exact absurd herr (by simp)
        · rw [hr, raise_err] at herr
          exact absurd herr (by simp)
        · rw [hr, raise_err] at herr
          exact absurd herr (by simp)
        · rw [hr] at herr he
          cases hok : (env.ccolamd_l (argsOf env nargin pargin Ainput)).ok with
          | false =>
            rw [order_fail env nargout _ hok, raise_err] at herr
            exact absurd herr (by simp)
          | true =>
            rw [order_ok env nargout _ hok] at he
            simp only [hz, ne_eq, not_true_eq_false, if_false, List.mem_append,
              List.mem_singleton, List.mem_cons, List.not_mem_nil, or_false] at he
            rcases he with ((he | he) | rfl) | rfl | rfl | rfl
            · exact convTrace_silent env nargin pargin e he
            · exact allocTrace_silent env _ Ainput e he
            all_goals simp [Event.prints]

/-- Claim C10 on the sample call with four knobs: the flag is 0 and the
successful run prints nothing. -/
theorem C10_verbosity_witness :
    (mexFunction (sampleEnv true false) 1 2
      (samplePargin [Dbl.ofInt64 1, Dbl.ofInt64 1, Dbl.ofInt64 1, Dbl.ofInt64 1] [])).err
        = none ∧
    ∀ e ∈ (mexFunction (sampleEnv true false) 1 2
      (samplePargin [Dbl.ofInt64 1, Dbl.ofInt64 1, Dbl.ofInt64 1, Dbl.ofInt64 1] [])).trace,
      ¬ e.prints :=
  ⟨by decide,
    (C10_verbosity (sampleEnv true false) 1 2
      (samplePargin [Dbl.ofInt64 1, Dbl.ofInt64 1, Dbl.ofInt64 1, Dbl.ofInt64 1]
        [])).2.2.2 (by decide) (by decide)⟩

/-- The only call of the estimator recorded before the engine is the one for
the matrix `Ainput`. -/
theorem recommended_mem (env : Env) (nargin : Int) (pargin : Nat → MxArray)
    (printed : List Event) (hp : echo env (getKnobs env nargin pargin) = some printed)
    (full : Bool) (Ainput : MxArray) (nnz n_row n_col : Int)
    (h : Event.ccolamd_l_recommended nnz n_row n_col ∈
      convTrace env nargin pargin printed ++ allocTrace env full Ainput) :
    nnz = nnzOf Ainput ∧ n_row = Ainput.m ∧ n_col = Ainput.n := by
  rcases List.mem_append.mp h with h | h
  · exact absurd (convTrace_early env nargin pargin printed hp _ h) (by simp [Event.early])
  · unfold allocTrace at h
    cases full <;> simp at h <;> exact h

theorem workspace_not_early (n : Int) : ¬ (Event.mxCalloc .A n).early := by
  simp [Event.early]

/-- Claim C6: on a call that passes the argument-count and 2-dimensional
checks, if `ccolamd_l_recommended (nnz, n_row, n_col)` with `nnz = p [n_col]`
returns 0, the run ends with "ccolamd: problem too large", the workspace `A`
is never allocated and the engine is never called; conversely a run ends with
this error only if the estimator was called and returned 0. -/
theorem C6_problem_too_large (env : Env) (nargout nargin : Int) (pargin : Nat → MxArray) :
    (∀ Ainput, ¬ (nargin < 1 ∨ nargin > 3 ∨ nargout < 0 ∨ nargout > 2) →
      (pargin 0).ndims = 2 → getAinput env (pargin 0) = some Ainput →
      Ainput.n + 1 ≤ Ainput.jc.length →
      env.ccolamd_l_recommended (nnzOf Ainput) Ainput.m Ainput.n = 0 →
      (mexFunction env nargout nargin pargin).err =
        some (.mexErrMsgTxt "ccolamd: problem too large") ∧
      (∀ n, Event.mxCalloc .A n ∉ (mexFunction env nargout nargin pargin).trace) ∧
      (∀ a, Event.ccolamd_l a ∉ (mexFunction env nargout nargin pargin).trace)) ∧
    (∀ nnz n_row n_col,
      Event.ccolamd_l_recommended nnz n_row n_col ∈
        (mexFunction env nargout nargin pargin).trace →
      env.ccolamd_l_recommended nnz n_row n_col = 0 →
      (mexFunction env nargout nargin pargin).err =
        some (.mexErrMsgTxt "ccolamd: problem too large") ∧
      (∀ n, Event.mxCalloc .A n ∉ (mexFunction env nargout nargin pargin).trace) ∧
      (∀ a, Event.ccolamd_l a ∉ (mexFunction env nargout nargin pargin).trace)) ∧
    ((mexFunction env nargout nargin pargin).err =
        some (.mexErrMsgTxt "ccolamd: problem too large") →
      ∃ nnz n_row n_col,
        Event.ccolamd_l_recommended nnz n_row n_col ∈
          (mexFunction env nargout nargin pargin).trace ∧
        env.ccolamd_l_recommended nnz n_row n_col = 0) := by
  have tooLarge : ∀ printed Ainput, echo env (getKnobs env nargin pargin) = some printed →
      mexFunction env nargout nargin pargin =
        Run.raise (convTrace env nargin pargin printed ++
          [.mxCalloc .p ((Ainput.n : Int) + 1),
            .ccolamd_l_recommended (nnzOf Ainput) Ainput.m Ainput.n])
          (.mexErrMsgTxt "ccolamd: problem too large") →
      (mexFunction env nargout nargin pargin).err =
        some (.mexErrMsgTxt "ccolamd: problem too large") ∧
      (∀ n, Event.mxCalloc .A n ∉ (mexFunction env nargout nargin pargin).trace) ∧
      (∀ a, Event.ccolamd_l a ∉ (mexFunction env nargout nargin pargin).trace) := by
    intro printed Ainput hp hr
    rw [hr]
    refine ⟨rfl, ?_, ?_⟩
    · intro n hmem
      rw [raise_trace] at hmem
      rcases List.mem_append.mp hmem with hmem | hmem
      · exact workspace_not_early n (convTrace_early env nargin pargin printed hp _ hmem)
      · simp at hmem
    · intro a hmem
      rw [raise_trace] at hmem
      rcases List.mem_append.mp hmem with hmem | hmem
      · exact absurd (convTrace_early env nargin pargin printed hp _ hmem)
          (by simp [Event.early])
      · simp at hmem
  refine ⟨?_, ?_, ?_⟩
  · intro Ainput hu hd hA hjc hzero
    have hz : AlenOf env Ainput = 0 := by
      unfold AlenOf
      rw [hzero]
      rfl
    rcases run_cases env nargout nargin pargin with ⟨hu', _⟩ | ⟨_, printed, hp, hc⟩
    · exact absurd hu' hu
    · rcases hc with ⟨hd', _⟩ | ⟨_, hA', _⟩ | ⟨_, Ainput', hA', hc⟩
      · exact absurd hd hd'
      · rw [hA] at hA'
        exact absurd hA' (by simp)
      · rw [hA] at hA'
        obtain rfl := Option.some.inj hA'
        rcases hc with ⟨h1, _⟩ | ⟨_, _, hr⟩ | ⟨h2, _, _⟩ | ⟨h2, _, _, _⟩ | ⟨h2, _, _, _⟩
        · omega
        · exact tooLarge printed Ainput hp hr
        · exact absurd hz h2
        · exact absurd hz h2
        · exact absurd hz h2
  · intro nnz n_row n_col hmem hzero
    rcases run_cases env nargout nargin pargin with ⟨_, hr⟩ | ⟨_, printed, hp, hc⟩
    · rw [hr, raise_trace] at hmem
      simp at hmem
    · have hearly : ¬ (Event.ccolamd_l_recommended nnz n_row n_col).early := by
        simp [Event.early]
      have hcontra : ∀ full Ainput, AlenOf env Ainput ≠ 0 →
          Event.ccolamd_l_recommended nnz n_row n_col ∉
            convTrace env nargin pargin printed ++ allocTrace env full Ainput := by
        intro full Ainput h2 hm
        obtain ⟨rfl, rfl, rfl⟩ := recommended_mem env nargin pargin printed hp full Ainput _ _ _ hm
        apply h2
        unfold AlenOf
        rw [hzero]
        rfl
      rcases hc with ⟨_, hr⟩ | ⟨_, _, hr⟩ | ⟨_, Ainput, _, hc⟩
      · rw [hr, raise_trace] at hmem
        exact absurd (echoTrace_early env nargin pargin printed hp _ hmem) hearly
      · rw [hr, raise_trace] at hmem
        exact absurd (convTrace_early env nargin pargin printed hp _ hmem) hearly
      · rcases hc with ⟨_, hr⟩ | ⟨_, _, hr⟩ | ⟨h2, _, hr⟩ | ⟨h2, _, _, hr⟩ | ⟨h2, _, _, hr⟩
        · rw [hr, raise_trace] at hmem
          rcases List.mem_append.mp hmem with hmem | hmem
          · exact absurd (convTrace_early env nargin pargin printed hp _ hmem) hearly
          · simp at hmem
        · exact tooLarge printed Ainput hp hr
        · rw [hr, raise_trace] at hmem
          exact absurd (by simpa [allocTrace] using hmem) (hcontra false Ainput h2)
        · rw [hr, raise_trace] at hmem
          exact absurd hmem (hcontra _ Ainput h2)
        · rw [hr] at hmem
          rcases order_trace_late env nargout _ _ hmem with hmem | hlate
          · exact absurd hmem (hcontra _ Ainput h2)
          · exact absurd hlate (by simp [Event.late])
  · intro herr
    rcases run_cases env nargout nargin pargin with ⟨_, hr⟩ | ⟨_, printed, _, hc⟩
    · rw [hr, raise_err] at herr
      exact absurd herr (by decide)
    · rcases hc with ⟨_, hr⟩ | ⟨_, _, hr⟩ | ⟨_, Ainput, _, hc⟩
      · rw [hr, raise_err] at herr
        exact absurd herr (by decide)
      · rw [hr, raise_err] at herr
        exact absurd herr (by decide)
      · rcases hc with ⟨_, hr⟩ | ⟨_, hz, hr⟩ | ⟨_, _, hr⟩ | ⟨_, _, _, hr⟩ | ⟨_, _, _, hr⟩
        · rw [hr, raise_err] at herr
          exact absurd herr (by decide)
        · refine ⟨nnzOf Ainput, Ainput.m, Ainput.n, ?_, ?_⟩
          · rw [hr, raise_trace]
            simp
          · unfold AlenOf at hz
            exact_mod_cast hz
        · rw [hr, raise_err] at herr
          exact absurd herr (by decide)
        · rw [hr, raise_err] at herr
          exact absurd herr (by decide)
        · rw [hr] at herr
          rcases order_err env nargout
            ⟨convTrace env nargin pargin printed ++
                allocTrace env (!(pargin 0).isSparse) Ainput,
              (getKnobs env nargin pargin).spumoni, argsOf env nargin pargin Ainput⟩ with
            he | he
          · rw [he] at herr
            exact absurd herr (by simp)
          · rw [he] at herr
            exact absurd herr (by decide)

/-- Claim C6 on the sample call with an estimator that returns 0. -/
theorem C6_problem_too_large_witness :
    ¬ ((1 : Int) < 1 ∨ (1 : Int) > 3 ∨ (1 : Int) < 0 ∨ (1 : Int) > 2) ∧
    (samplePargin [] [] 0).ndims = 2 ∧
    getAinput (sampleEnv true true) (samplePargin [] [] 0) = some sampleMatrix ∧
    sampleMatrix.n + 1 ≤ sampleMatrix.jc.length ∧
    (sampleEnv true true).ccolamd_l_recommended (nnzOf sampleMatrix) sampleMatrix.m
      sampleMatrix.n = 0 ∧
    (mexFunction (sampleEnv true true) 1 1 (samplePargin [] [])).err =
      some (.mexErrMsgTxt "ccolamd: problem too large") ∧
    (∀ n, Event.mxCalloc .A n ∉
      (mexFunction (sampleEnv true true) 1 1 (samplePargin [] [])).trace) ∧
    (∀ a, Event.ccolamd_l a ∉
      (mexFunction (sampleEnv true true) 1 1 (samplePargin [] [])).trace) :=
  ⟨by decide, by decide, by decide, by decide, by decide,
    (C6_problem_too_large (sampleEnv true true) 1 1 (samplePargin [] [])).1 sampleMatrix
      (by decide) (by decide) (by decide) (by decide) (by decide)⟩

theorem getCmember_given (env : Env) (nargin : Int) (pargin : Nat → MxArray) (h3 : nargin > 2)
    (hne : mxGetNumberOfElements (pargin 2) ≠ 0) :
    (getCmember env nargin pargin).cmember ≠ none ∧
      (getCmember env nargin pargin).cslen = mxGetNumberOfElements (pargin 2) := by
  unfold getCmember
  rw [if_pos h3]
  simp only []
  rw [if_pos hne]
  exact ⟨by simp, rfl⟩

/-- Claim C2, as the code has it: on a call that passes the argument-count,
2-dimensional and workspace-size checks, if a third argument is given whose
number of elements is not zero and differs from `n_col`, the run ends with
"ccolamd: cmember must be of length equal to #cols of A" and the engine is
never called. -/
theorem C2_cmember_length_check (env : Env) (nargout nargin : Int) (pargin : Nat → MxArray)
    (Ainput : MxArray)
    (hargs : ¬ (nargin < 1 ∨ nargin > 3 ∨ nargout < 0 ∨ nargout > 2))
    (hdim : (pargin 0).ndims = 2)
    (hA : getAinput env (pargin 0) = some Ainput)
    (hsize : env.ccolamd_l_recommended (nnzOf Ainput) Ainput.m Ainput.n ≠ 0)
    (hcopy : CopiesInBounds env Ainput)
    (h3 : nargin > 2)
    (hne : mxGetNumberOfElements (pargin 2) ≠ 0)
    (hlen : mxGetNumberOfElements (pargin 2) ≠ Ainput.n) :
    (mexFunction env nargout nargin pargin).err =
      some (.mexErrMsgTxt "ccolamd: cmember must be of length equal to #cols of A") ∧
    ∀ a, Event.ccolamd_l a ∉ (mexFunction env nargout nargin pargin).trace := by
  obtain ⟨hsome, hcs⟩ := getCmember_given env nargin pargin h3 hne
  have hmis : (getCmember env nargin pargin).cmember ≠ none ∧
      (getCmember env nargin pargin).cslen ≠ Ainput.n := ⟨hsome, by rw [hcs]; exact hlen⟩
  rcases run_cases env nargout nargin pargin with ⟨hu, _⟩ | ⟨_, printed, hp, hc⟩
  · exact absurd hu hargs
  · rcases hc with ⟨hd, _⟩ | ⟨_, hA', _⟩ | ⟨_, Ainput', hA', hc⟩
    · exact absurd hdim hd
    · rw [hA] at hA'
      exact absurd hA' (by simp)
    · rw [hA] at hA'
      obtain rfl := Option.some.inj hA'
      rcases hc with ⟨h1, _⟩ | ⟨_, hz, _⟩ | ⟨_, hb, _⟩ | ⟨_, _, _, hr⟩ | ⟨_, _, h4, _⟩
      · have := hcopy.1
        omega
      · exfalso
        apply hsize
        unfold AlenOf at hz
        exact_mod_cast hz
      · exact absurd hcopy hb
      · rw [hr]
        refine ⟨rfl, ?_⟩
        intro a hmem
        rw [raise_trace] at hmem
        rcases List.mem_append.mp hmem with hmem | hmem
        · exact absurd (convTrace_early env nargin pargin printed hp _ hmem)
            (by simp [Event.early])
        · exact allocTrace_not_late env _ Ainput _ hmem trivial
      · exact absurd hmis h4

/-- Claim C2, amended, on the sample call with a constraint vector of one
element for a matrix of two columns. -/
theorem C2_cmember_length_check_witness :
    ¬ ((3 : Int) < 1 ∨ (3 : Int) > 3 ∨ (1 : Int) < 0 ∨ (1 : Int) > 2) ∧
    (samplePargin [] [Dbl.ofInt64 1] 0).ndims = 2 ∧
    getAinput (sampleEnv true false) (samplePargin [] [Dbl.ofInt64 1] 0) = some sampleMatrix ∧
    (sampleEnv true false).ccolamd_l_recommended (nnzOf sampleMatrix) sampleMatrix.m
      sampleMatrix.n ≠ 0 ∧
    CopiesInBounds (sampleEnv true false) sampleMatrix ∧
    (3 : Int) > 2 ∧
    mxGetNumberOfElements (samplePargin [] [Dbl.ofInt64 1] 2) ≠ 0 ∧
    mxGetNumberOfElements (samplePargin [] [Dbl.ofInt64 1] 2) ≠ sampleMatrix.n ∧
    (mexFunction (sampleEnv true false) 1 3 (samplePargin [] [Dbl.ofInt64 1])).err =
      some (.mexErrMsgTxt "ccolamd: cmember must be of length equal to #cols of A") ∧
    ∀ a, Event.ccolamd_l a ∉
      (mexFunction (sampleEnv true false) 1 3 (samplePargin [] [Dbl.ofInt64 1])).trace :=
  ⟨by decide, by decide, by decide, by decide, by decide, by decide, by decide, by decide,
    C2_cmember_length_check (sampleEnv true false) 1 3 (samplePargin [] [Dbl.ofInt64 1])
      sampleMatrix (by decide) (by decide) (by decide) (by decide) (by decide) (by decide)
      (by decide) (by decide)⟩

/-- Claim C2 as stated fails: with an empty third argument and a matrix of
two columns the call passes the argument-count, 2-dimensional and
workspace-size checks, the third argument's number of elements (0) differs
from `n_col` (2), and yet no error is raised and the engine is called, with
no constraint vector. -/
theorem C2_counterexample :
    ¬ ((3 : Int) < 1 ∨ (3 : Int) > 3 ∨ (1 : Int) < 0 ∨ (1 : Int) > 2) ∧
    (samplePargin [] [] 0).ndims = 2 ∧
    getAinput (sampleEnv true false) (samplePargin [] [] 0) = some sampleMatrix ∧
    (sampleEnv true false).ccolamd_l_recommended (nnzOf sampleMatrix) sampleMatrix.m
      sampleMatrix.n ≠ 0 ∧
    CopiesInBounds (sampleEnv true false) sampleMatrix ∧
    (3 : Int) > 2 ∧
    mxGetNumberOfElements (samplePargin [] [] 2) ≠ sampleMatrix.n ∧
    (mexFunction (sampleEnv true false) 1 3 (samplePargin [] [])).err = none ∧
    Event.ccolamd_l sampleArgs ∈
      (mexFunction (sampleEnv true false) 1 3 (samplePargin [] [])).trace ∧
    sampleArgs.cmember = none := by
  decide

/-- Claim C3, amended, on the sample call with the constraint vector
`[1, 2.5]`: the engine receives `[0, 1]`. -/
theorem C3_cmember_translation_witness :
    Event.ccolamd_l (sampleArgsWith sampleDefaults (some [0, 1])) ∈
      (mexFunction (sampleEnv true false) 1 3
        (samplePargin [] [Dbl.ofInt64 1, ⟨5, 1⟩])).trace ∧
    ((sampleArgsWith sampleDefaults (some [0, 1])).cmember = none ↔
      ((3 : Int) < 3 ∨
        mxGetNumberOfElements (samplePargin [] [Dbl.ofInt64 1, ⟨5, 1⟩] 2) = 0)) ∧
    ∀ ids, (sampleArgsWith sampleDefaults (some [0, 1])).cmember = some ids →
      (ids.length : Int) = mxGetNumberOfElements (samplePargin [] [Dbl.ofInt64 1, ⟨5, 1⟩] 2) ∧
      (∀ i (h : i < (samplePargin [] [Dbl.ofInt64 1, ⟨5, 1⟩] 2).pr.length),
        ids[i]? = some (wrap64 ((sampleEnv true false).toInt64
          ((samplePargin [] [Dbl.ofInt64 1, ⟨5, 1⟩] 2).pr[i]) - 1))) ∧
      (∀ i (h : i < (samplePargin [] [Dbl.ofInt64 1, ⟨5, 1⟩] 2).pr.length),
        -2 ^ 63 < ((samplePargin [] [Dbl.ofInt64 1, ⟨5, 1⟩] 2).pr[i]).trunc →
        ((samplePargin [] [Dbl.ofInt64 1, ⟨5, 1⟩] 2).pr[i]).trunc < 2 ^ 63 →
        ids[i]? = some (((samplePargin [] [Dbl.ofInt64 1, ⟨5, 1⟩] 2).pr[i]).trunc - 1)) ∧
      (∀ i j (hi : i < (samplePargin [] [Dbl.ofInt64 1, ⟨5, 1⟩] 2).pr.length)
          (hj : j < (samplePargin [] [Dbl.ofInt64 1, ⟨5, 1⟩] 2).pr.length) ci cj,
        -2 ^ 63 < ((samplePargin [] [Dbl.ofInt64 1, ⟨5, 1⟩] 2).pr[i]).trunc →
        ((samplePargin [] [Dbl.ofInt64 1, ⟨5, 1⟩] 2).pr[i]).trunc < 2 ^ 63 →
        -2 ^ 63 < ((samplePargin [] [Dbl.ofInt64 1, ⟨5, 1⟩] 2).pr[j]).trunc →
        ((samplePargin [] [Dbl.ofInt64 1, ⟨5, 1⟩] 2).pr[j]).trunc < 2 ^ 63 →
        ids[i]? = some ci → ids[j]? = some cj →
        (ci = cj ↔ ((samplePargin [] [Dbl.ofInt64 1, ⟨5, 1⟩] 2).pr[i]).trunc =
          ((samplePargin [] [Dbl.ofInt64 1, ⟨5, 1⟩] 2).pr[j]).trunc) ∧
        (ci < cj ↔ ((samplePargin [] [Dbl.ofInt64 1, ⟨5, 1⟩] 2).pr[i]).trunc <
          ((samplePargin [] [Dbl.ofInt64 1, ⟨5, 1⟩] 2).pr[j]).trunc)) :=
  ⟨by decide,
    C3_cmember_translation (sampleEnv true false) 1 3
      (samplePargin [] [Dbl.ofInt64 1, ⟨5, 1⟩])
      (sampleArgsWith sampleDefaults (some [0, 1])) (by decide)⟩

/-- Claim C3 as stated fails: with the constraint vector `[-2 ^ 63, 1]` the
integer values of the argument's entries are `-2 ^ 63` and 1, and the engine
receives `[2 ^ 63 - 1, 0]`: entry 0 is not `-2 ^ 63 - 1`, and the first id,
lower than the second before the translation, is higher after it. -/
theorem C3_counterexample :
    Event.ccolamd_l (sampleArgsWith sampleDefaults (some [2 ^ 63 - 1, 0])) ∈
      (mexFunction (sampleEnv true false) 1 3
        (samplePargin [] [⟨-2 ^ 63, 0⟩, Dbl.ofInt64 1])).trace ∧
    (Dbl.mk (-2 ^ 63) 0).trunc = -2 ^ 63 ∧
    (Dbl.ofInt64 1).trunc = 1 ∧
    (2 ^ 63 - 1 : Int) ≠ -2 ^ 63 - 1 ∧
    (Dbl.mk (-2 ^ 63) 0).trunc < (Dbl.ofInt64 1).trunc ∧
    ¬ ((2 ^ 63 - 1 : Int) < 0) := by
  decide

end Ccolamd
